import Mathlib

/-!
Shallow embedding of the QR-attendance session logic of src/db_manager.py
(class DatabaseManager: the business-logic methods start_qr_session,
get_active_qr_session, scan_qr_code, stop_qr_session and the helper
_count_valid_sessions_for_date), together with the storage state they
manipulate through the backend get/update methods.

Modelling conventions:
* Python dicts that act as keyed stores (classes, enrollment lists, QR
  sessions, per-date attendance) become association lists with first-match
  lookup; assignment keeps an existing key in place and appends a new key,
  matching Python dict insertion-order semantics.
* Timestamps (datetime.utcnow) are natural numbers (seconds); the current
  time and the randomly generated code are explicit arguments, so every
  operation is a pure function from a storage state to a result and a new
  storage state.  The backend bookkeeping field updated_at, which the
  business logic never reads, is not modelled.
* A raised ValueError becomes Except.error carrying the message; each
  operation returns the (possibly updated) state alongside, so that a
  failure path returns exactly the state at the moment of the raise.
* put-counters class_put_count / qr_put_count count backend writes
  (update_class, create_qr_session, update_qr_session).
-/

namespace AttendSheets

/-- Decimal digits of n, little-endian, fuel-based so the recursion is
structural and kernel-reducible; fuel n is always sufficient because the
argument shrinks at each division by 10.  Together with decStr this models
how Python str() renders the nonnegative int interpolated by the f-strings
in db_manager.py. -/
def decDigits : Nat → Nat → List Char
  | 0, _ => []
  | fuel + 1, n => if n = 0 then [] else Nat.digitChar (n % 10) :: decDigits fuel (n / 10)

/-- Decimal string of a natural number (Python str(i) for an int i ≥ 0). -/
def decStr (n : Nat) : String := if n = 0 then "0" else String.mk (decDigits n n).reverse

/-- models the Python f-string for the per-session mark identifier. -/
def sessionId (i : Nat) : String := "session_" ++ decStr i

/-- models the Python f-string for the per-session display name. -/
def sessionName (i : Nat) : String := "QR Session " ++ decStr i

/-- First-match lookup in an association list (Python dict read). -/
def alookup {κ α : Type} [DecidableEq κ] : List (κ × α) → κ → Option α
  | [], _ => none
  | (k', v) :: rest, k => if k' = k then some v else alookup rest k

/-- Key assignment in an association list: replaces the value at an existing
key in place, appends a fresh key at the end (Python dict write). -/
def aset {κ α : Type} [DecidableEq κ] : List (κ × α) → κ → α → List (κ × α)
  | [], k, v => [(k, v)]
  | (k', v') :: rest, k, v => if k' = k then (k, v) :: rest else (k', v') :: aset rest k v

/-- One element of a structured attendance entry's sessions array. -/
structure SessionMark where
  id : String
  name : String
  status : Option String
deriving DecidableEq

/-- The polymorphic value stored at a student's attendance[date] key, as the
dynamic type checks of db_manager.py distinguish it: a plain string, a dict
carrying a sessions array, or a legacy dict carrying a status (whose count
field, read with default 1 by _count_valid_sessions_for_date, is stored here
already defaulted).  A dict carrying both keys takes the sessionsDict branch
first in the source, so it is modelled as sessionsDict. -/
inductive DayValue where
  | str (s : String)
  | sessionsDict (sessions : List SessionMark) (updated_at : Nat)
  | statusDict (status : Option String) (count : Nat)
deriving DecidableEq

/-- Python truthiness of an attendance day value (the if day_data: test):
an empty string is falsy, the two dict shapes contain their discriminating
key and hence are nonempty, truthy dicts. -/
def DayValue.truthy : DayValue → Bool
  | .str s => !s.isEmpty
  | .sessionsDict _ _ => true
  | .statusDict _ _ => true

/-- An embedded student record inside a class: its id and its per-date
attendance mapping. -/
structure StudentRecord where
  id : String
  attendance : List (String × DayValue)
deriving DecidableEq

/-- A stored class record (the fields the QR logic reads). -/
structure ClassData where
  teacher_id : String
  enrollment_mode : String
  students : List StudentRecord
deriving DecidableEq

/-- An enrollment row linking a student to a student record of a class. -/
structure Enrollment where
  student_id : String
  student_record_id : String
  status : String
deriving DecidableEq

/-- A stored QR session record. -/
structure QRSession where
  class_id : String
  teacher_id : String
  date : String
  session_number : Nat
  started_at : Nat
  rotation_interval : Nat
  current_code : String
  code_generated_at : Nat
  scanned_students : List String
  status : String
  last_scan_at : Option Nat := none
  stopped_at : Option Nat := none
deriving DecidableEq

/-- The storage state behind the backend: classes by class_id, enrollment
lists by class_id, QR sessions by (class_id, date), plus counters of backend
write calls (update_class and create/update_qr_session respectively). -/
structure DBState where
  classes : List (String × ClassData)
  enrollments : List (String × List Enrollment)
  qr_sessions : List ((String × String) × QRSession)
  class_put_count : Nat
  qr_put_count : Nat
deriving DecidableEq

def DBState.get_class (σ : DBState) (class_id : String) : Option ClassData :=
  alookup σ.classes class_id

def DBState.update_class (σ : DBState) (class_id : String) (c : ClassData) : DBState :=
  { σ with classes := aset σ.classes class_id c, class_put_count := σ.class_put_count + 1 }

def DBState.get_enrollments (σ : DBState) (class_id : String) : List Enrollment :=
  (alookup σ.enrollments class_id).getD []

def DBState.get_qr_session (σ : DBState) (class_id date : String) : Option QRSession :=
  alookup σ.qr_sessions (class_id, date)

def DBState.put_qr_session (σ : DBState) (class_id date : String) (s : QRSession) : DBState :=
  { σ with qr_sessions := aset σ.qr_sessions (class_id, date) s,
           qr_put_count := σ.qr_put_count + 1 }

/-- the list 1, 2, ..., n, i.e. Python range(1, n + 1). -/
def range1 (n : Nat) : List Nat := (List.range n).map (· + 1)

/-- db_manager.py: _count_valid_sessions_for_date.  Folds over the class's
students, taking the maximum of each student's per-date contribution: for a
sessions dict the number of marks with non-null status, for a legacy status
dict its (defaulted) count when the status is non-null, for a nonempty
string 1; a missing or falsy day value contributes nothing. -/
def count_valid_sessions_for_date (class_data : ClassData) (date : String) : Nat :=
  class_data.students.foldl
    (fun max_sessions student =>
      match alookup student.attendance date with
      | some day_data =>
        if day_data.truthy then
          match day_data with
          | .sessionsDict sessions _ =>
            max max_sessions (sessions.filter (fun s => s.status.isSome)).length
          | .statusDict status count =>
            if status.isSome then max max_sessions count else max_sessions
          | .str _ => max max_sessions 1
        else max_sessions
      | none => max_sessions)
    0

/-- the Python test: existing_session and existing_session.get(status) == active. -/
def optActive : Option QRSession → Bool
  | some s => s.status == "active"
  | none => false

/-- db_manager.py: start_qr_session.  now is datetime.utcnow() and code the
freshly generated random code. -/
def start_qr_session (σ : DBState) (class_id teacher_id date : String)
    (rotation_interval : Nat) (now : Nat) (code : String) :
    Except String QRSession × DBState :=
  match σ.get_class class_id with
  | none => (.error "Class not found or unauthorized", σ)
  | some class_data =>
    if class_data.teacher_id ≠ teacher_id then
      (.error "Class not found or unauthorized", σ)
    else if class_data.enrollment_mode ≠ "enrollment_via_id" then
      (.error "QR attendance is only available for classes with student enrollment via Class ID", σ)
    else
      let valid_session_count := count_valid_sessions_for_date class_data date
      let existing_session := σ.get_qr_session class_id date
      if optActive existing_session then
        (.error "There is already an active QR session for this date. Please stop it first.", σ)
      else
        let session_number := valid_session_count + 1
        let qr_session_data : QRSession :=
          { class_id := class_id, teacher_id := teacher_id, date := date,
            session_number := session_number, started_at := now,
            rotation_interval := rotation_interval, current_code := code,
            code_generated_at := now, scanned_students := [], status := "active" }
        (.ok qr_session_data, σ.put_qr_session class_id date qr_session_data)

/-- db_manager.py: get_active_qr_session.  now is datetime.utcnow() and
newCode the code the generator would produce if rotation fires; elapsed is
computed as a (possibly negative) integer difference of timestamps. -/
def get_active_qr_session (σ : DBState) (class_id date : String)
    (now : Nat) (newCode : String) : Option QRSession × DBState :=
  match σ.get_qr_session class_id date with
  | none => (none, σ)
  | some session_data =>
    if session_data.status ≠ "active" then (none, σ)
    else
      let elapsed : Int := (now : Int) - (session_data.code_generated_at : Int)
      if (session_data.rotation_interval : Int) ≤ elapsed then
        let refreshed := { session_data with current_code := newCode, code_generated_at := now }
        (some refreshed, σ.put_qr_session class_id date refreshed)
      else
        (some session_data, σ)

/-- The scan payload after the json.loads attempt in scan_qr_code: obj c raw
models an input raw that parses as a JSON object whose code member is c
(none when the member is absent or not a string); raw s models every other
input, where either parsing fails or the parsed value is not a dict so that
.get raises and the bare except falls back to the original string s. -/
inductive ScanInput where
  | raw (s : String)
  | obj (code : Option String) (rawText : String)
deriving DecidableEq

/-- the value qr_code_value that scan_qr_code compares against current_code. -/
def extractCode : ScanInput → Option String
  | .raw s => some s
  | .obj c _ => c

/-- first enrollment with matching student_id and active status (the scan
loop over all_enrollments with break). -/
def findActiveEnrollment : List Enrollment → String → Option Enrollment
  | [], _ => none
  | e :: rest, sid =>
    if e.student_id = sid ∧ e.status = "active" then some e
    else findActiveEnrollment rest sid

/-- first student record with matching id (the loop over class students with
break). -/
def findStudentRecord : List StudentRecord → String → Option StudentRecord
  | [], _ => none
  | s :: rest, rid => if s.id = rid then some s else findStudentRecord rest rid

/-- rewrite the first student record with matching id through f, leaving the
rest untouched (the in-place mutation of the record found by the loop). -/
def updateFirstStudent : List StudentRecord → String → (StudentRecord → StudentRecord) → List StudentRecord
  | [], _, _ => []
  | s :: rest, rid, f =>
    if s.id = rid then f s :: rest else s :: updateFirstStudent rest rid f

/-- Python list.insert(i, a): insert before index i, appending when i is at
or beyond the end. -/
def pyInsert {α : Type} (i : Nat) (a : α) (l : List α) : List α :=
  l.take i ++ a :: l.drop i

/-- set the status of the first mark whose id matches sid (the inner loop
with break in scan_qr_code's already-exists branch). -/
def setFirstStatus : List SessionMark → String → String → List SessionMark
  | [], _, _ => []
  | s :: rest, sid, mark =>
    if s.id = sid then { s with status := some mark } :: rest
    else s :: setFirstStatus rest sid mark

/-- scan_qr_code, fresh structured list built when the current value is a
string or absent: mark 1 keeps a prior scalar, the target session gets P,
everything else gets A. -/
def scanBuildSessions (current : Option String) (n : Nat) : List SessionMark :=
  (range1 n).map (fun i =>
    { id := sessionId i, name := sessionName i,
      status := match current with
        | some s => if i = 1 then some s else some (if i = n then "P" else "A")
        | none => some (if i = n then "P" else "A") })

/-- scan_qr_code, merge into an existing sessions array: ids are collected
once up front; a missing session_i is inserted at position i - 1 (P for the
target session, A otherwise), and if the target session already exists only
its status is overwritten. -/
def scanMergeSessions (sessions : List SessionMark) (n : Nat) : List SessionMark :=
  let existing_ids := sessions.map (fun s => s.id)
  (range1 n).foldl
    (fun acc i =>
      let sid := sessionId i
      if sid ∈ existing_ids then
        if i = n then setFirstStatus acc sid "P" else acc
      else
        pyInsert (i - 1)
          { id := sid, name := sessionName i,
            status := some (if i = n then "P" else "A") } acc)
    sessions

/-- the value stored at attendance[date] by scan_qr_code's update block: a
scalar P for session 1; otherwise a structured value built or merged from
the current one.  A legacy status dict matches neither isinstance branch, so
the entry is left as it was. -/
def scanEntryValue (current : Option DayValue) (n : Nat) (now : Nat) : DayValue :=
  if n = 1 then .str "P"
  else
    match current with
    | none => .sessionsDict (scanBuildSessions none n) now
    | some (.str s) => .sessionsDict (scanBuildSessions (some s) n) now
    | some (.sessionsDict sessions _) => .sessionsDict (scanMergeSessions sessions n) now
    | some (.statusDict st c) => .statusDict st c

/-- the result dict returned by scan_qr_code. -/
structure ScanResult where
  success : Bool
  message : String
  scan_count : Nat
  session_number : Nat
  date : String
deriving DecidableEq

/-- db_manager.py: scan_qr_code.  now is datetime.utcnow(). -/
def scan_qr_code (σ : DBState) (student_id class_id : String) (qr_code : ScanInput)
    (date : String) (now : Nat) : Except String ScanResult × DBState :=
  match σ.get_qr_session class_id date with
  | none => (.error "No active QR session", σ)
  | some session_data =>
    if session_data.status ≠ "active" then (.error "No active QR session", σ)
    else
      let qr_code_value := extractCode qr_code
      if some session_data.current_code ≠ qr_code_value then
        (.error "Invalid or expired QR code", σ)
      else
        let qr_session_number := session_data.session_number
        let all_enrollments := σ.get_enrollments class_id
        match findActiveEnrollment all_enrollments student_id with
        | none => (.error "Student not actively enrolled in this class", σ)
        | some enrollment =>
          let student_record_id := enrollment.student_record_id
          match σ.get_class class_id with
          | none => (.error "Class not found", σ)
          | some class_data =>
            match findStudentRecord class_data.students student_record_id with
            | none => (.error "Student record not found", σ)
            | some student_record =>
              let current_value := alookup student_record.attendance date
              let newEntry := scanEntryValue current_value qr_session_number now
              let class_data' := { class_data with
                students := updateFirstStudent class_data.students student_record_id
                  (fun st => { st with attendance := aset st.attendance date newEntry }) }
              let σ₁ := σ.update_class class_id class_data'
              let scanned := session_data.scanned_students
              let scanned' := if student_record_id ∈ scanned then scanned
                              else scanned ++ [student_record_id]
              let session' := { session_data with
                scanned_students := scanned', last_scan_at := some now }
              let σ₂ := σ₁.put_qr_session class_id date session'
              (.ok { success := true,
                     message := "Attendance marked as Present (Session #" ++
                       decStr qr_session_number ++ ")",
                     scan_count := qr_session_number,
                     session_number := qr_session_number, date := date }, σ₂)

/-- stop_qr_session, fresh structured list for a string or absent current
value: mark 1 keeps a prior scalar, everything else (the target included)
gets A. -/
def stopBuildSessions (current : Option String) (n : Nat) : List SessionMark :=
  (range1 n).map (fun i =>
    { id := sessionId i, name := sessionName i,
      status := match current with
        | some s => if i = 1 then some s else some "A"
        | none => some "A" })

/-- stop_qr_session, merge into an existing sessions array: only missing
session_i marks are inserted (with status A); an existing mark, the target
session's included, is never touched. -/
def stopMergeSessions (sessions : List SessionMark) (n : Nat) : List SessionMark :=
  let existing_ids := sessions.map (fun s => s.id)
  (range1 n).foldl
    (fun acc i =>
      let sid := sessionId i
      if sid ∈ existing_ids then acc
      else
        pyInsert (i - 1)
          { id := sid, name := sessionName i, status := some "A" } acc)
    sessions

/-- the value stored at attendance[date] by stop_qr_session's absence sweep
for one non-scanned active student: scalar A for session 1, otherwise build
or merge with A marks; a legacy status dict matches neither branch and is
left as it was. -/
def stopEntryValue (current : Option DayValue) (n : Nat) (now : Nat) : DayValue :=
  if n = 1 then .str "A"
  else
    match current with
    | none => .sessionsDict (stopBuildSessions none n) now
    | some (.str s) => .sessionsDict (stopBuildSessions (some s) n) now
    | some (.sessionsDict sessions _) => .sessionsDict (stopMergeSessions sessions n) now
    | some (.statusDict st c) => .statusDict st c

/-- the result dict returned by stop_qr_session. -/
structure StopResult where
  success : Bool
  scanned_count : Nat
  absent_count : Nat
  date : String
  session_number : Nat
deriving DecidableEq

/-- db_manager.py: stop_qr_session.  now is datetime.utcnow().  If the class
record has vanished, the source crashes with an AttributeError on None
before writing anything; that crash is modelled as an error result. -/
def stop_qr_session (σ : DBState) (class_id teacher_id date : String) (now : Nat) :
    Except String StopResult × DBState :=
  match σ.get_qr_session class_id date with
  | none => (.error "No active session", σ)
  | some session_data =>
    if session_data.status ≠ "active" then (.error "No active session", σ)
    else if session_data.teacher_id ≠ teacher_id then (.error "Unauthorized", σ)
    else
      let qr_session_number := session_data.session_number
      let scanned_ids := session_data.scanned_students
      let all_enrollments := σ.get_enrollments class_id
      let active_student_ids :=
        (all_enrollments.filter (fun e => e.status == "active")).map
          (fun e => e.student_record_id)
      match σ.get_class class_id with
      | none => (.error "AttributeError: NoneType has no attribute get", σ)
      | some class_data =>
        let students' := class_data.students.map (fun student =>
          if student.id ∈ active_student_ids ∧ student.id ∉ scanned_ids then
            let newAtt := aset student.attendance date
              (stopEntryValue (alookup student.attendance date) qr_session_number now)
            { student with attendance := newAtt }
          else student)
        let marked_absent := (class_data.students.filter
          (fun student => decide (student.id ∈ active_student_ids ∧ student.id ∉ scanned_ids))).length
        let σ₁ := σ.update_class class_id { class_data with students := students' }
        let session' := { session_data with status := "stopped", stopped_at := some now }
        let σ₂ := σ₁.put_qr_session class_id date session'
        (.ok { success := true, scanned_count := scanned_ids.dedup.length,
               absent_count := marked_absent, date := date,
               session_number := qr_session_number }, σ₂)

/-- one student's contribution to the valid-session count for a date. -/
def dayContribution (date : String) (student : StudentRecord) : Nat :=
  match alookup student.attendance date with
  | some day_data =>
    if day_data.truthy then
      match day_data with
      | .sessionsDict sessions _ => (sessions.filter (fun s => s.status.isSome)).length
      | .statusDict status count => if status.isSome then count else 0
      | .str _ => 1
    else 0
  | none => 0

/-- the session record persisted by a successful start. -/
def newQRSession (cid tid date : String) (ri now : Nat) (code : String) (n : Nat) : QRSession :=
  { class_id := cid, teacher_id := tid, date := date, session_number := n,
    started_at := now, rotation_interval := ri, current_code := code,
    code_generated_at := now, scanned_students := [], status := "active" }

/-- the session record after a lazy rotation. -/
def rotatedSession (s : QRSession) (newCode : String) (now : Nat) : QRSession :=
  { s with current_code := newCode, code_generated_at := now }

/-- the active student_record_ids computed by stop_qr_session. -/
def activeRecordIds (enrs : List Enrollment) : List String :=
  (enrs.filter (fun e => e.status == "active")).map (fun e => e.student_record_id)

/-- the student records that stop_qr_session's sweep touches. -/
def absentTargets (students : List StudentRecord) (activeIds scannedIds : List String) :
    List StudentRecord :=
  students.filter (fun student => decide (student.id ∈ activeIds ∧ student.id ∉ scannedIds))

/-- a student record with one day value overwritten. -/
def withEntry (r : StudentRecord) (date : String) (entry : DayValue) : StudentRecord :=
  { r with attendance := aset r.attendance date entry }

/-- the class record persisted by a successful scan. -/
def scanClassAfter (c : ClassData) (rid date : String) (entry : DayValue) : ClassData :=
  { c with students := updateFirstStudent c.students rid (fun r => withEntry r date entry) }

/-- the session record persisted by a successful scan. -/
def scanSessionAfter (sess : QRSession) (rid : String) (now : Nat) : QRSession :=
  { sess with
    scanned_students := if rid ∈ sess.scanned_students then sess.scanned_students
                        else sess.scanned_students ++ [rid],
    last_scan_at := some now }

/-- the result dict of a successful scan. -/
def scanOkResult (n : Nat) (date : String) : ScanResult :=
  { success := true,
    message := "Attendance marked as Present (Session #" ++ decStr n ++ ")",
    scan_count := n, session_number := n, date := date }

/-- the class record persisted by a successful stop. -/
def stopClassAfter (c : ClassData) (activeIds scannedIds : List String) (date : String)
    (n now : Nat) : ClassData :=
  { c with students := c.students.map (fun student =>
      if student.id ∈ activeIds ∧ student.id ∉ scannedIds then
        withEntry student date (stopEntryValue (alookup student.attendance date) n now)
      else student) }

/-- the sessions list carries exactly ids session_1 .. session_m in order. -/
def canonicalIds (l : List SessionMark) (m : Nat) : Prop :=
  l.map (fun s => s.id) = (range1 m).map sessionId

/-- status of the first mark whose id matches, none when no mark matches
(how the source reads a session's mark out of a sessions array). -/
def firstMark : List SessionMark → String → Option (Option String)
  | [], _ => none
  | s :: rest, sid => if s.id = sid then some s.status else firstMark rest sid

/-- the observable mark a day value assigns to session i. -/
def entryMark (dv : DayValue) (i : Nat) : Option String :=
  match dv with
  | .str s => if i = 1 then some s else none
  | .sessionsDict l _ => (firstMark l (sessionId i)).getD none
  | .statusDict st _ => if i = 1 then st else none

/-- the list m + 1, m + 2, ..., n. -/
def segRange (m n : Nat) : List Nat := (List.range (n - m)).map (fun t => t + m + 1)

/-- the mark inserted for index i by scan_qr_code's merge loop. -/
def scanTailMark (n i : Nat) : SessionMark :=
  { id := sessionId i, name := sessionName i, status := some (if i = n then "P" else "A") }

/-- the mark inserted for index i by stop_qr_session's merge loop. -/
def stopTailMark (i : Nat) : SessionMark :=
  { id := sessionId i, name := sessionName i, status := some "A" }

/-- the step function of scan_qr_code's merge fold. -/
def scanStep (ids : List String) (n : Nat) (acc : List SessionMark) (i : Nat) :
    List SessionMark :=
  let sid := sessionId i
  if sid ∈ ids then
    if i = n then setFirstStatus acc sid "P" else acc
  else
    pyInsert (i - 1) { id := sid, name := sessionName i,
                       status := some (if i = n then "P" else "A") } acc

/-- the step function of stop_qr_session's merge fold. -/
def stopStep (ids : List String) (acc : List SessionMark) (i : Nat) : List SessionMark :=
  let sid := sessionId i
  if sid ∈ ids then acc
  else pyInsert (i - 1) { id := sid, name := sessionName i, status := some "A" } acc

/-- the attendance values this module itself ever stores at a date key:
absent, a scalar string, or a structured entry with canonical ids. -/
def wfPrior (cur : Option DayValue) : Prop :=
  cur = none ∨ (∃ s, cur = some (.str s)) ∨
  (∃ l u m, cur = some (.sessionsDict l u) ∧ canonicalIds l m)

/-- the day value a student record of a class assigns to a date (absent when
the class, record, or key is missing). -/
def structuredAt (st : StudentRecord) (d : String) : Prop :=
  ∃ l u, alookup st.attendance d = some (.sessionsDict l u)

def exDate : String := "2026-01-05"

def exStudent (rid : String) : StudentRecord := { id := rid, attendance := [] }

def exClass : ClassData :=
  { teacher_id := "t1", enrollment_mode := "enrollment_via_id",
    students := [exStudent "r1", exStudent "r2", exStudent "r3"] }

def exEnrollments : List Enrollment :=
  [{ student_id := "s1", student_record_id := "r1", status := "active" },
   { student_id := "s2", student_record_id := "r2", status := "active" },
   { student_id := "s3", student_record_id := "r3", status := "active" }]

def exSession : QRSession :=
  { class_id := "c1", teacher_id := "t1", date := exDate, session_number := 1,
    started_at := 0, rotation_interval := 5, current_code := "CODE1234",
    code_generated_at := 100, scanned_students := ["r1", "r2"], status := "active" }

def exState : DBState :=
  { classes := [("c1", exClass)], enrollments := [("c1", exEnrollments)],
    qr_sessions := [(("c1", exDate), exSession)], class_put_count := 0, qr_put_count := 0 }

def exClass5 : ClassData :=
  { teacher_id := "t1", enrollment_mode := "enrollment_via_id",
    students :=
      [{ id := "r1", attendance := [(exDate, .sessionsDict
          [{ id := "session_1", name := "QR Session 1", status := some "P" },
           { id := "session_2", name := "QR Session 2", status := some "A" }] 0)] },
       { id := "r2", attendance := [(exDate, .str "P")] },
       { id := "r3", attendance := [] }] }

/-- the day-value shapes the specification's data model admits: a nonempty
scalar string or a structured entry (the legacy status dict lies outside the
specified model). -/
def specShaped : DayValue → Bool
  | .str s => !s.isEmpty
  | .sessionsDict _ _ => true
  | .statusDict _ _ => false

/-- the per-entry count the specification describes for countValidSessions:
structured entries count their non-null marks, scalar strings count one,
absent entries count zero. -/
def claimEntryCount : Option DayValue → Nat
  | none => 0
  | some (.str _) => 1
  | some (.sessionsDict l _) => (l.filter (fun s => s.status.isSome)).length
  | some (.statusDict _ _) => 0

/-- the code extraction the claim describes: the code member if the input is
a JSON object carrying one, and the whole raw input in every other case,
including an object without a code member. -/
def claimExtractCode : ScanInput → Option String
  | .raw s => some s
  | .obj (some c) _ => some c
  | .obj none raw => some raw

def exSession8 : QRSession := { exSession with current_code := "OBJRAW" }

def exState8 : DBState :=
  { exState with qr_sessions := [(("c1", exDate), exSession8)] }

def exState0 : DBState := { exState with qr_sessions := [] }

def exSessionFresh : QRSession := { exSession with scanned_students := [] }

def exStateFresh : DBState :=
  { exState with qr_sessions := [(("c1", exDate), exSessionFresh)] }

/-- the mark a stored state assigns to session i of one student's date. -/
def markOfState (σ : DBState) (cid rid d : String) (i : Nat) : Option String :=
  match σ.get_class cid with
  | none => none
  | some c =>
    match findStudentRecord c.students rid with
    | none => none
    | some st =>
      match alookup st.attendance d with
      | none => none
      | some dv => entryMark dv i

def exClass3 : ClassData :=
  { teacher_id := "t1", enrollment_mode := "enrollment_via_id",
    students := [{ id := "r1", attendance := [(exDate, .sessionsDict
        [{ id := "session_1", name := "QR Session 1", status := some "P" },
         { id := "session_2", name := "QR Session 2", status := some "P" }] 0)] }] }

def exSession3 : QRSession :=
  { exSession with session_number := 2, scanned_students := [] }

def exState3 : DBState :=
  { classes := [("c1", exClass3)],
    enrollments := [("c1",
      [{ student_id := "s1", student_record_id := "r1", status := "active" }])],
    qr_sessions := [(("c1", exDate), exSession3)],
    class_put_count := 0, qr_put_count := 0 }

def exClass4 : ClassData :=
  { teacher_id := "t1", enrollment_mode := "enrollment_via_id",
    students := [{ id := "r1", attendance := [(exDate, .sessionsDict
        [{ id := "session_1", name := "QR Session 1", status := none }] 0)] }] }

def exSession4 : QRSession := { exSession with scanned_students := [] }

def exState4 : DBState :=
  { classes := [("c1", exClass4)],
    enrollments := [("c1",
      [{ student_id := "s1", student_record_id := "r1", status := "active" }])],
    qr_sessions := [(("c1", exDate), exSession4)],
    class_put_count := 0, qr_put_count := 0 }

/-- the attendance entry a stored state assigns to one student's date. -/
def entryOfState (σ : DBState) (cid rid d : String) : Option DayValue :=
  match σ.get_class cid with
  | none => none
  | some c =>
    match findStudentRecord c.students rid with
    | none => none
    | some st => alookup st.attendance d

/-- the structured representation the specification demands of an entry
produced for session n from prior value cur: canonical ids session_1 ..
session_N with n ≤ N, missing sessions filled with A (all but the target
when built fresh, the ones beyond the prior list when merged), and session 1
carrying a prior scalar when one existed. -/
def filledStructured (cur : Option DayValue) (dv : DayValue) (n now : Nat) : Prop :=
  ∃ l N, dv = .sessionsDict l now ∧ canonicalIds l N ∧ n ≤ N ∧
    (cur = none → ∀ i, 1 ≤ i → i ≤ N → i ≠ n →
      firstMark l (sessionId i) = some (some "A")) ∧
    (∀ s0, cur = some (.str s0) → firstMark l (sessionId 1) = some (some s0) ∧
      ∀ i, 2 ≤ i → i ≤ N → i ≠ n → firstMark l (sessionId i) = some (some "A")) ∧
    (∀ l0 u0 m, cur = some (.sessionsDict l0 u0) → canonicalIds l0 m →
      ∀ i, m < i → i ≤ N → i ≠ n → firstMark l (sessionId i) = some (some "A"))

def exClass9 : ClassData :=
  { teacher_id := "t1", enrollment_mode := "enrollment_via_id",
    students := [{ id := "r1", attendance := [(exDate, .str "P")] }] }

def exState9 : DBState :=
  { classes := [("c1", exClass9)],
    enrollments := [("c1",
      [{ student_id := "s1", student_record_id := "r1", status := "active" }])],
    qr_sessions := [(("c1", exDate), exSession3)],
    class_put_count := 0, qr_put_count := 0 }

/-! Basic facts about the decimal printer and mark identifiers. -/

/-! Association-list lemmas. -/

/-! range1 lemmas. -/

/-! Characterizing count_valid_sessions_for_date as a running maximum of
per-student contributions. -/

/-! Symbolic-execution equations for the four operations: what each one
returns, and that every failure returns the state unchanged. -/

/-! Characterizing the sessions-array builders and mergers on well-formed
inputs.  A structured entry written by this module always carries ids
session_1 .. session_N in order; canonicalIds states that shape. -/

/-! Entry-level consequences: what scanEntryValue and stopEntryValue store,
over the value shapes this module itself writes (absent, scalar string, or
canonical structured entry). -/

/-! Lemmas about the student-record list manipulations. -/

/-! Store-access frame facts. -/

/-! Concrete fixture: one class with three enrolled students, used by the
witnesses below. -/

theorem decDigits_fuel (n : Nat) : ∀ f₁ f₂, n ≤ f₁ → n ≤ f₂ →
    decDigits f₁ n = decDigits f₂ n := by
  induction n using Nat.strong_induction_on with
  | _ n ih =>
    intro f₁ f₂ h₁ h₂
    match f₁, f₂ with
    | 0, 0 => rfl
    | 0, f₂ + 1 =>
      interval_cases n
      simp [decDigits]
    | f₁ + 1, 0 =>
      interval_cases n
      simp [decDigits]
    | f₁ + 1, f₂ + 1 =>
      by_cases hn : n = 0
      · simp [decDigits, hn]
      · simp only [decDigits, hn, if_false]
        have hlt : n / 10 < n := Nat.div_lt_self (Nat.pos_of_ne_zero hn) (by omega)
        rw [ih (n / 10) hlt f₁ f₂ (by omega) (by omega)]

theorem decDigits_self_eq (n : Nat) (hn : n ≠ 0) :
    decDigits n n = Nat.digitChar (n % 10) :: decDigits (n / 10) (n / 10) := by
  match n, hn with
  | n + 1, _ =>
    simp only [decDigits, Nat.succ_ne_zero, if_false, reduceCtorEq]
    have hle : (n + 1) / 10 ≤ n := by omega
    rw [decDigits_fuel ((n + 1) / 10) n ((n + 1) / 10) hle (Nat.le_refl _)]

theorem decDigits_self_eq_nil (n : Nat) : decDigits n n = [] ↔ n = 0 := by
  constructor
  · intro h
    by_contra hn
    rw [decDigits_self_eq n hn] at h
    exact List.cons_ne_nil _ _ h
  · intro h; subst h; rfl

theorem digitChar_injOn : ∀ a < 10, ∀ b < 10, Nat.digitChar a = Nat.digitChar b → a = b := by
  decide

theorem decDigits_self_inj (n : Nat) : ∀ m, decDigits n n = decDigits m m → n = m := by
  induction n using Nat.strong_induction_on with
  | _ n ih =>
    intro m h
    by_cases hn : n = 0
    · subst hn
      by_contra hm
      rw [decDigits_self_eq m (by omega)] at h
      exact List.cons_ne_nil _ _ h.symm
    · by_cases hm : m = 0
      · subst hm
        rw [decDigits_self_eq n hn] at h
        exact absurd h (List.cons_ne_nil _ _)
      · rw [decDigits_self_eq n hn, decDigits_self_eq m hm] at h
        injection h with hhead htail
        have hmod : n % 10 = m % 10 :=
          digitChar_injOn _ (Nat.mod_lt _ (by omega)) _ (Nat.mod_lt _ (by omega)) hhead
        have hdiv : n / 10 = m / 10 :=
          ih (n / 10) (Nat.div_lt_self (Nat.pos_of_ne_zero hn) (by omega)) (m / 10) htail
        omega

theorem digitChar_eq_zero_char : ∀ b < 10, Nat.digitChar b = ('0') → b = 0 := by
  decide

theorem decStr_inj {n m : Nat} (h : decStr n = decStr m) : n = m := by
  have hdata := congrArg String.data h
  by_cases hn : n = 0 <;> by_cases hm : m = 0
  · omega
  · exfalso
    simp only [decStr, hn, hm, if_true, if_false] at hdata
    have hrev : decDigits m m = ['0'] := by
      have := congrArg List.reverse hdata
      simpa using this.symm
    rw [decDigits_self_eq m hm] at hrev
    injection hrev with hhead htail
    have := digitChar_eq_zero_char (m % 10) (Nat.mod_lt _ (by omega)) hhead
    have hdiv := (decDigits_self_eq_nil (m / 10)).mp htail
    omega
  · exfalso
    simp only [decStr, hn, hm, if_true, if_false] at hdata
    have hrev : decDigits n n = ['0'] := by
      have := congrArg List.reverse hdata
      simpa using this
    rw [decDigits_self_eq n hn] at hrev
    injection hrev with hhead htail
    have := digitChar_eq_zero_char (n % 10) (Nat.mod_lt _ (by omega)) hhead
    have hdiv := (decDigits_self_eq_nil (n / 10)).mp htail
    omega
  · simp only [decStr, hn, hm, if_false] at hdata
    have : decDigits n n = decDigits m m := by
      have := congrArg List.reverse hdata
      simpa using this
    exact decDigits_self_inj n m this

theorem sessionId_inj {i j : Nat} (h : sessionId i = sessionId j) : i = j := by
  have hdata := congrArg String.data h
  simp only [sessionId] at hdata
  have hi : ("session_" ++ decStr i).data = "session_".data ++ (decStr i).data :=
    String.data_append _ _
  have hj : ("session_" ++ decStr j).data = "session_".data ++ (decStr j).data :=
    String.data_append _ _
  rw [hi, hj] at hdata
  have hdec : (decStr i).data = (decStr j).data := List.append_cancel_left hdata
  exact decStr_inj (String.ext hdec)

theorem sessionId_ne {i j : Nat} (h : i ≠ j) : sessionId i ≠ sessionId j :=
  fun hc => h (sessionId_inj hc)

theorem alookup_aset_self {κ α : Type} [DecidableEq κ] (l : List (κ × α)) (k : κ) (v : α) :
    alookup (aset l k v) k = some v := by
  induction l with
  | nil => simp [alookup, aset]
  | cons p rest ih =>
    obtain ⟨k', v'⟩ := p
    by_cases hk : k' = k
    · simp [alookup, aset, hk]
    · simp [alookup, aset, hk, ih]

theorem alookup_aset_ne {κ α : Type} [DecidableEq κ] (l : List (κ × α)) (k k' : κ) (v : α)
    (h : k' ≠ k) : alookup (aset l k v) k' = alookup l k' := by
  induction l with
  | nil => simp [alookup, aset, Ne.symm h]
  | cons p rest ih =>
    obtain ⟨k₀, v₀⟩ := p
    by_cases hk : k₀ = k
    · subst hk
      simp [alookup, aset, Ne.symm h]
    · simp only [aset, hk, if_false, alookup]
      by_cases hk' : k₀ = k'
      · simp [hk']
      · simp [hk', ih]

theorem aset_aset_self {κ α : Type} [DecidableEq κ] (l : List (κ × α)) (k : κ) (v v' : α) :
    aset (aset l k v) k v' = aset l k v' := by
  induction l with
  | nil => simp [aset]
  | cons p rest ih =>
    obtain ⟨k₀, v₀⟩ := p
    by_cases hk : k₀ = k
    · simp [aset, hk]
    · simp [aset, hk, ih]

theorem range1_succ (n : Nat) : range1 (n + 1) = range1 n ++ [n + 1] := by
  simp [range1, List.range_succ]

theorem mem_range1 {i n : Nat} : i ∈ range1 n ↔ 1 ≤ i ∧ i ≤ n := by
  simp only [range1, List.mem_map, List.mem_range]
  constructor
  · rintro ⟨j, hj, rfl⟩; omega
  · intro ⟨h1, h2⟩; exact ⟨i - 1, by omega, by omega⟩

theorem length_range1 (n : Nat) : (range1 n).length = n := by
  simp [range1]

theorem count_valid_eq_foldl_max (c : ClassData) (date : String) :
    count_valid_sessions_for_date c date =
      (c.students.map (dayContribution date)).foldl max 0 := by
  rw [List.foldl_map]
  unfold count_valid_sessions_for_date
  congr 1
  funext m st
  unfold dayContribution
  cases halookup : alookup st.attendance date with
  | none => simp
  | some dv =>
    cases hdv : dv.truthy
    · simp [hdv]
    · cases dv with
      | str s => simp [hdv]
      | sessionsDict l u => simp [hdv]
      | statusDict stt cnt =>
        simp only [hdv, if_true]
        split <;> simp

theorem foldl_max_le {b : Nat} : ∀ (l : List Nat) (a : Nat),
    l.foldl max a ≤ b ↔ a ≤ b ∧ ∀ x ∈ l, x ≤ b := by
  intro l
  induction l with
  | nil => simp
  | cons x rest ih =>
    intro a
    simp only [List.foldl_cons, ih, List.mem_cons]
    constructor
    · intro ⟨h1, h2⟩
      exact ⟨le_trans (Nat.le_max_left _ _) h1,
        fun y hy => hy.elim (fun hxy => hxy ▸ le_trans (Nat.le_max_right _ _) h1) (h2 y)⟩
    · intro ⟨h1, h2⟩
      exact ⟨Nat.max_le.mpr ⟨h1, h2 x (Or.inl rfl)⟩, fun y hy => h2 y (Or.inr hy)⟩

theorem le_foldl_max_init : ∀ (l : List Nat) (a : Nat), a ≤ l.foldl max a := by
  intro l
  induction l with
  | nil => simp
  | cons x rest ih =>
    intro a
    exact le_trans (Nat.le_max_left a x) (ih (max a x))

theorem le_foldl_max_mem {x : Nat} : ∀ (l : List Nat) (a : Nat), x ∈ l → x ≤ l.foldl max a := by
  intro l
  induction l with
  | nil => simp
  | cons y rest ih =>
    intro a hmem
    rcases List.mem_cons.mp hmem with h | h
    · subst h
      exact le_trans (Nat.le_max_right a x) (le_foldl_max_init rest _)
    · exact ih _ h

theorem foldl_max_eq_zero_iff {l : List Nat} : l.foldl max 0 = 0 ↔ ∀ x ∈ l, x = 0 := by
  constructor
  · intro h x hx
    have := le_foldl_max_mem l 0 hx
    omega
  · intro h
    have := (foldl_max_le (b := 0) l 0).mpr ⟨Nat.le_refl 0, fun x hx => (h x hx).le⟩
    omega

theorem foldl_max_eq_of {l : List Nat} {b : Nat} (hub : ∀ x ∈ l, x ≤ b) (hmem : b ∈ l) :
    l.foldl max 0 = b :=
  Nat.le_antisymm ((foldl_max_le l 0).mpr ⟨Nat.zero_le b, hub⟩) (le_foldl_max_mem l 0 hmem)

theorem start_qr_session_ok (σ : DBState) (cid tid date : String) (ri now : Nat)
    (code : String) (c : ClassData)
    (hc : σ.get_class cid = some c) (ht : c.teacher_id = tid)
    (hm : c.enrollment_mode = "enrollment_via_id")
    (hna : optActive (σ.get_qr_session cid date) = false) :
    start_qr_session σ cid tid date ri now code =
      (.ok (newQRSession cid tid date ri now code (count_valid_sessions_for_date c date + 1)),
       σ.put_qr_session cid date
         (newQRSession cid tid date ri now code (count_valid_sessions_for_date c date + 1))) := by
  simp [start_qr_session, hc, ht, hm, hna, newQRSession]

theorem start_qr_session_error_frame {σ σ' : DBState} {cid tid date : String}
    {ri now : Nat} {code : String} {e : String}
    (h : start_qr_session σ cid tid date ri now code = (.error e, σ')) : σ' = σ := by
  unfold start_qr_session at h
  repeat' (first | split at h | dsimp only at h)
  all_goals simp_all

theorem get_active_qr_session_fresh (σ : DBState) (cid date : String) (now : Nat)
    (newCode : String) (s : QRSession)
    (hs : σ.get_qr_session cid date = some s) (ha : s.status = "active")
    (hlt : (now : Int) - (s.code_generated_at : Int) < (s.rotation_interval : Int)) :
    get_active_qr_session σ cid date now newCode = (some s, σ) := by
  simp [get_active_qr_session, hs, ha, Int.not_le.mpr hlt]

theorem get_active_qr_session_rotate (σ : DBState) (cid date : String) (now : Nat)
    (newCode : String) (s : QRSession)
    (hs : σ.get_qr_session cid date = some s) (ha : s.status = "active")
    (hge : (s.rotation_interval : Int) ≤ (now : Int) - (s.code_generated_at : Int)) :
    get_active_qr_session σ cid date now newCode =
      (some (rotatedSession s newCode now),
       σ.put_qr_session cid date (rotatedSession s newCode now)) := by
  simp [get_active_qr_session, hs, ha, hge, rotatedSession]

theorem scan_qr_code_ok (σ : DBState) (sid cid : String) (input : ScanInput)
    (date : String) (now : Nat) (sess : QRSession) (e : Enrollment)
    (c : ClassData) (st : StudentRecord)
    (hs : σ.get_qr_session cid date = some sess) (ha : sess.status = "active")
    (hcode : extractCode input = some sess.current_code)
    (he : findActiveEnrollment (σ.get_enrollments cid) sid = some e)
    (hc : σ.get_class cid = some c)
    (hst : findStudentRecord c.students e.student_record_id = some st) :
    scan_qr_code σ sid cid input date now =
      (.ok (scanOkResult sess.session_number date),
       (σ.update_class cid
           (scanClassAfter c e.student_record_id date
             (scanEntryValue (alookup st.attendance date) sess.session_number now))).put_qr_session
         cid date (scanSessionAfter sess e.student_record_id now)) := by
  simp [scan_qr_code, hs, ha, hcode, he, hc, hst, scanOkResult, scanClassAfter,
    scanSessionAfter, withEntry]

theorem scan_qr_code_error_frame {σ σ' : DBState} {sid cid : String} {input : ScanInput}
    {date : String} {now : Nat} {e : String}
    (h : scan_qr_code σ sid cid input date now = (.error e, σ')) : σ' = σ := by
  unfold scan_qr_code at h
  repeat' (first | split at h | dsimp only at h)
  all_goals simp_all

theorem stop_qr_session_ok (σ : DBState) (cid tid date : String) (now : Nat)
    (sess : QRSession) (c : ClassData)
    (hs : σ.get_qr_session cid date = some sess) (ha : sess.status = "active")
    (ht : sess.teacher_id = tid) (hc : σ.get_class cid = some c) :
    stop_qr_session σ cid tid date now =
      (.ok { success := true, scanned_count := sess.scanned_students.dedup.length,
             absent_count := (absentTargets c.students
               (activeRecordIds (σ.get_enrollments cid)) sess.scanned_students).length,
             date := date, session_number := sess.session_number },
       (σ.update_class cid
           (stopClassAfter c (activeRecordIds (σ.get_enrollments cid))
             sess.scanned_students date sess.session_number now)).put_qr_session
         cid date { sess with status := "stopped", stopped_at := some now }) := by
  simp [stop_qr_session, hs, ha, ht, hc, stopClassAfter, absentTargets, activeRecordIds,
    withEntry]

theorem stop_qr_session_error_frame {σ σ' : DBState} {cid tid date : String}
    {now : Nat} {e : String}
    (h : stop_qr_session σ cid tid date now = (.error e, σ')) : σ' = σ := by
  unfold stop_qr_session at h
  repeat' (first | split at h | dsimp only at h)
  all_goals simp_all

theorem sessionId_mem_map_range {i m : Nat} :
    sessionId i ∈ (range1 m).map sessionId ↔ 1 ≤ i ∧ i ≤ m := by
  simp only [List.mem_map]
  constructor
  · rintro ⟨j, hj, heq⟩
    have := sessionId_inj heq
    subst this
    exact mem_range1.mp hj
  · intro h
    exact ⟨i, mem_range1.mpr h, rfl⟩

theorem canonicalIds_length {l : List SessionMark} {m : Nat} (h : canonicalIds l m) :
    l.length = m := by
  have := congrArg List.length h
  simpa [length_range1] using this

theorem canonicalIds_mem {l : List SessionMark} {m : Nat} (h : canonicalIds l m) {i : Nat} :
    sessionId i ∈ l.map (fun s => s.id) ↔ 1 ≤ i ∧ i ≤ m := by
  rw [h]; exact sessionId_mem_map_range

theorem setFirstStatus_ids (l : List SessionMark) (sid mark : String) :
    (setFirstStatus l sid mark).map (fun s => s.id) = l.map (fun s => s.id) := by
  induction l with
  | nil => rfl
  | cons s rest ih =>
    unfold setFirstStatus
    split <;> simp_all

theorem firstMark_setFirstStatus {l : List SessionMark} {sid : String} (mark : String)
    (h : sid ∈ l.map (fun s => s.id)) :
    firstMark (setFirstStatus l sid mark) sid = some (some mark) := by
  induction l with
  | nil => simp at h
  | cons s rest ih =>
    unfold setFirstStatus
    by_cases hs : s.id = sid
    · simp [firstMark, hs]
    · simp only [hs, if_false, firstMark]
      have : sid ∈ rest.map (fun s => s.id) := by
        simpa [hs, Ne.symm hs] using h
      simp [ih this]

theorem setFirstStatus_eq_self {l : List SessionMark} {sid mark : String}
    (h : firstMark l sid = some (some mark)) : setFirstStatus l sid mark = l := by
  induction l with
  | nil => rfl
  | cons s rest ih =>
    unfold setFirstStatus
    by_cases hs : s.id = sid
    · simp only [firstMark, hs, if_true, Option.some.injEq] at h
      rw [if_pos hs]
      have hrec : { s with status := some mark } = s := by
        cases s
        simp_all
      rw [hrec]
    · simp only [firstMark, hs, if_false] at h
      simp [hs, ih h]

theorem firstMark_append_of_not_mem {l t : List SessionMark} {sid : String}
    (h : sid ∉ l.map (fun s => s.id)) :
    firstMark (l ++ t) sid = firstMark t sid := by
  induction l with
  | nil => rfl
  | cons s rest ih =>
    simp only [List.map_cons, List.mem_cons, not_or] at h
    simp only [List.cons_append, firstMark, Ne.symm h.1, if_false]
    exact ih h.2

theorem firstMark_map_of_mem (mk : Nat → SessionMark)
    (hmkid : ∀ i, (mk i).id = sessionId i) {k : Nat} :
    ∀ xs : List Nat, k ∈ xs → firstMark (xs.map mk) (sessionId k) = some (mk k).status := by
  intro xs
  induction xs with
  | nil => simp
  | cons x rest ih =>
    intro hmem
    simp only [List.map_cons, firstMark, hmkid x]
    by_cases hx : x = k
    · subst hx
      simp
    · simp only [sessionId_ne hx, if_false]
      apply ih
      rcases List.mem_cons.mp hmem with h | h
      · exact absurd h.symm hx
      · exact h

theorem foldl_id {β γ : Type} (f : β → γ → β) (init : β) (xs : List γ)
    (h : ∀ x ∈ xs, ∀ acc, f acc x = acc) : xs.foldl f init = init := by
  induction xs generalizing init with
  | nil => rfl
  | cons x rest ih =>
    simp only [List.foldl_cons, h x (List.mem_cons_self x rest) init]
    exact ih init (fun y hy => h y (List.mem_cons_of_mem x hy))

theorem pyInsert_at_length {α : Type} (l : List α) (a : α) :
    pyInsert l.length a l = l ++ [a] := by
  simp [pyInsert]

theorem segRange_self (m : Nat) : segRange m m = [] := by
  simp [segRange]

theorem segRange_succ {m j : Nat} (h : m ≤ j) :
    segRange m (j + 1) = segRange m j ++ [j + 1] := by
  unfold segRange
  rw [show j + 1 - m = (j - m) + 1 by omega, List.range_succ]
  simp only [List.map_append, List.map_cons, List.map_nil]
  congr 2
  omega

theorem mem_segRange {i m n : Nat} : i ∈ segRange m n ↔ m + 1 ≤ i ∧ i ≤ n := by
  simp only [segRange, List.mem_map, List.mem_range]
  constructor
  · rintro ⟨t, ht, rfl⟩; omega
  · intro h; exact ⟨i - m - 1, by omega, by omega⟩

theorem length_segRange (m n : Nat) : (segRange m n).length = n - m := by
  simp [segRange]

theorem range1_append_segRange {m n : Nat} (h : m ≤ n) :
    range1 n = range1 m ++ segRange m n := by
  induction n, h using Nat.le_induction with
  | base => simp [segRange_self]
  | succ j hj ih =>
    rw [range1_succ, ih, segRange_succ hj, List.append_assoc]

/-- A generic account of the insertion loops: a fold whose step leaves the
accumulator alone on indices up to m (the ids already present) and inserts
mk i at position i - 1 on larger indices appends mk (m+1) .. mk j in
order. -/
theorem foldl_insert_seg (g : List SessionMark → Nat → List SessionMark)
    (mk : Nat → SessionMark) (l : List SessionMark) (m : Nat) (hlen : l.length = m)
    (hskip : ∀ acc i, 1 ≤ i → i ≤ m → g acc i = acc)
    (hins : ∀ acc i, m < i → g acc i = pyInsert (i - 1) (mk i) acc) :
    ∀ j, m ≤ j → (range1 j).foldl g l = l ++ (segRange m j).map mk := by
  intro j hj
  induction j, hj using Nat.le_induction with
  | base =>
    rw [segRange_self]
    simp only [List.map_nil, List.append_nil]
    exact foldl_id g l (range1 m) (fun i hi acc =>
      hskip acc i (mem_range1.mp hi).1 (mem_range1.mp hi).2)
  | succ j hj ih =>
    rw [range1_succ, List.foldl_append, ih, segRange_succ hj]
    simp only [List.foldl_cons, List.foldl_nil, List.map_append, List.map_cons, List.map_nil]
    rw [hins _ (j + 1) (by omega)]
    have hlen' : (l ++ (segRange m j).map mk).length = j := by
      simp [hlen, length_segRange]; omega
    have hp := pyInsert_at_length (l ++ (segRange m j).map mk) (mk (j + 1))
    rw [hlen'] at hp
    rw [show j + 1 - 1 = j from rfl, hp, List.append_assoc]

theorem scanMergeSessions_eq_foldl (l : List SessionMark) (n : Nat) :
    scanMergeSessions l n = (range1 n).foldl (scanStep (l.map (fun s => s.id)) n) l := rfl

theorem stopMergeSessions_eq_foldl (l : List SessionMark) (n : Nat) :
    stopMergeSessions l n = (range1 n).foldl (stopStep (l.map (fun s => s.id))) l := rfl

theorem scanMerge_canonical_le {l : List SessionMark} {m n : Nat}
    (hc : canonicalIds l m) (h1 : 1 ≤ n) (hle : n ≤ m) :
    scanMergeSessions l n = setFirstStatus l (sessionId n) "P" := by
  obtain ⟨k, rfl⟩ : ∃ k, n = k + 1 := ⟨n - 1, by omega⟩
  rw [scanMergeSessions_eq_foldl, range1_succ, List.foldl_append]
  have hpre : (range1 k).foldl (scanStep (l.map (fun s => s.id)) (k + 1)) l = l := by
    apply foldl_id
    intro i hi acc
    obtain ⟨hi1, hi2⟩ := mem_range1.mp hi
    unfold scanStep
    have hmem : sessionId i ∈ l.map (fun s => s.id) :=
      (canonicalIds_mem hc).mpr ⟨hi1, by omega⟩
    simp [hmem, show i ≠ k + 1 by omega]
  rw [hpre]
  simp only [List.foldl_cons, List.foldl_nil]
  unfold scanStep
  have hmem : sessionId (k + 1) ∈ l.map (fun s => s.id) :=
    (canonicalIds_mem hc).mpr ⟨by omega, hle⟩
  simp [hmem]

theorem stopMerge_canonical_le {l : List SessionMark} {m n : Nat}
    (hc : canonicalIds l m) (hle : n ≤ m) :
    stopMergeSessions l n = l := by
  rw [stopMergeSessions_eq_foldl]
  apply foldl_id
  intro i hi acc
  obtain ⟨hi1, hi2⟩ := mem_range1.mp hi
  unfold stopStep
  have hmem : sessionId i ∈ l.map (fun s => s.id) :=
    (canonicalIds_mem hc).mpr ⟨hi1, by omega⟩
  simp [hmem]

theorem scanMerge_canonical_gt {l : List SessionMark} {m n : Nat}
    (hc : canonicalIds l m) (hgt : m < n) :
    scanMergeSessions l n = l ++ (segRange m n).map (scanTailMark n) := by
  rw [scanMergeSessions_eq_foldl]
  apply foldl_insert_seg _ _ _ m (canonicalIds_length hc) _ _ n (by omega)
  · intro acc i hi1 him
    unfold scanStep
    have hmem : sessionId i ∈ l.map (fun s => s.id) :=
      (canonicalIds_mem hc).mpr ⟨hi1, him⟩
    simp [hmem, show i ≠ n by omega]
  · intro acc i him
    unfold scanStep
    have hmem : sessionId i ∉ l.map (fun s => s.id) := by
      rw [canonicalIds_mem hc]; omega
    simp [hmem, scanTailMark]

theorem stopMerge_canonical_gt {l : List SessionMark} {m n : Nat}
    (hc : canonicalIds l m) (hgt : m < n) :
    stopMergeSessions l n = l ++ (segRange m n).map stopTailMark := by
  rw [stopMergeSessions_eq_foldl]
  apply foldl_insert_seg _ _ _ m (canonicalIds_length hc) _ _ n (by omega)
  · intro acc i hi1 him
    unfold stopStep
    have hmem : sessionId i ∈ l.map (fun s => s.id) :=
      (canonicalIds_mem hc).mpr ⟨hi1, him⟩
    simp [hmem]
  · intro acc i him
    unfold stopStep
    have hmem : sessionId i ∉ l.map (fun s => s.id) := by
      rw [canonicalIds_mem hc]; omega
    simp [hmem, stopTailMark]

theorem scanBuild_canonical (cur : Option String) (n : Nat) :
    canonicalIds (scanBuildSessions cur n) n := by
  simp [canonicalIds, scanBuildSessions, List.map_map, Function.comp]

theorem stopBuild_canonical (cur : Option String) (n : Nat) :
    canonicalIds (stopBuildSessions cur n) n := by
  simp [canonicalIds, stopBuildSessions, List.map_map, Function.comp]

theorem scanBuild_firstMark (cur : Option String) (n k : Nat) (h1 : 1 ≤ k) (hk : k ≤ n) :
    firstMark (scanBuildSessions cur n) (sessionId k) =
      some (match cur with
        | some s => if k = 1 then some s else some (if k = n then "P" else "A")
        | none => some (if k = n then "P" else "A")) := by
  unfold scanBuildSessions
  exact firstMark_map_of_mem _ (fun i => rfl) (range1 n) (mem_range1.mpr ⟨h1, hk⟩)

theorem stopBuild_firstMark (cur : Option String) (n k : Nat) (h1 : 1 ≤ k) (hk : k ≤ n) :
    firstMark (stopBuildSessions cur n) (sessionId k) =
      some (match cur with
        | some s => if k = 1 then some s else some "A"
        | none => some "A") := by
  unfold stopBuildSessions
  exact firstMark_map_of_mem _ (fun i => rfl) (range1 n) (mem_range1.mpr ⟨h1, hk⟩)

theorem scanMerge_canonical {l : List SessionMark} {m n : Nat}
    (hc : canonicalIds l m) (h1 : 1 ≤ n) :
    canonicalIds (scanMergeSessions l n) (max m n) := by
  rcases le_or_lt n m with hle | hgt
  · rw [scanMerge_canonical_le hc h1 hle, Nat.max_eq_left hle]
    unfold canonicalIds
    rw [setFirstStatus_ids]
    exact hc
  · rw [scanMerge_canonical_gt hc hgt, Nat.max_eq_right (by omega)]
    unfold canonicalIds
    simp only [List.map_append, List.map_map]
    rw [range1_append_segRange (by omega : m ≤ n), List.map_append, hc]
    simp [Function.comp, scanTailMark]

theorem stopMerge_canonical {l : List SessionMark} {m n : Nat}
    (hc : canonicalIds l m) :
    canonicalIds (stopMergeSessions l n) (max m n) := by
  rcases le_or_lt n m with hle | hgt
  · rw [stopMerge_canonical_le hc hle, Nat.max_eq_left hle]
    exact hc
  · rw [stopMerge_canonical_gt hc hgt, Nat.max_eq_right (by omega)]
    unfold canonicalIds
    simp only [List.map_append, List.map_map]
    rw [range1_append_segRange (by omega : m ≤ n), List.map_append, hc]
    simp [Function.comp, stopTailMark]

theorem scanMerge_firstMark_target {l : List SessionMark} {m n : Nat}
    (hc : canonicalIds l m) (h1 : 1 ≤ n) :
    firstMark (scanMergeSessions l n) (sessionId n) = some (some "P") := by
  rcases le_or_lt n m with hle | hgt
  · rw [scanMerge_canonical_le hc h1 hle]
    exact firstMark_setFirstStatus "P" ((canonicalIds_mem hc).mpr ⟨h1, hle⟩)
  · rw [scanMerge_canonical_gt hc hgt]
    rw [firstMark_append_of_not_mem (by rw [canonicalIds_mem hc]; omega)]
    have hmem : n ∈ segRange m n := mem_segRange.mpr ⟨by omega, Nat.le_refl n⟩
    rw [firstMark_map_of_mem (scanTailMark n) (fun i => rfl) _ hmem]
    simp [scanTailMark]

/-- a structured value freshly produced by a scan with target n: its sessions
carry canonical ids covering n, and the target mark reads P. -/
theorem scanEntryValue_canonical {cur : Option DayValue} {n now : Nat}
    (h2 : 2 ≤ n) (hwf : wfPrior cur) :
    ∃ l N, scanEntryValue cur n now = .sessionsDict l now ∧
      canonicalIds l N ∧ n ≤ N ∧ firstMark l (sessionId n) = some (some "P") := by
  have hne : n ≠ 1 := by omega
  rcases hwf with rfl | ⟨s, rfl⟩ | ⟨l, u, m, rfl, hc⟩
  · refine ⟨scanBuildSessions none n, n, by simp [scanEntryValue, hne], scanBuild_canonical none n,
      Nat.le_refl n, ?_⟩
    rw [scanBuild_firstMark none n n (by omega) (Nat.le_refl n)]
    simp
  · refine ⟨scanBuildSessions (some s) n, n, by simp [scanEntryValue, hne],
      scanBuild_canonical (some s) n, Nat.le_refl n, ?_⟩
    rw [scanBuild_firstMark (some s) n n (by omega) (Nat.le_refl n)]
    simp [hne]
  · refine ⟨scanMergeSessions l n, max m n, by simp [scanEntryValue, hne], ?_,
      Nat.le_max_right m n, ?_⟩
    · exact scanMerge_canonical hc (by omega)
    · exact scanMerge_firstMark_target hc (by omega)

theorem scanEntryValue_mark {cur : Option DayValue} {n now : Nat}
    (h1 : 1 ≤ n) (hwf : wfPrior cur) :
    entryMark (scanEntryValue cur n now) n = some "P" := by
  by_cases hn1 : n = 1
  · subst hn1
    simp [scanEntryValue, entryMark]
  · obtain ⟨l, N, heq, _, _, hfm⟩ := scanEntryValue_canonical (show 2 ≤ n by omega) hwf
    rw [heq]
    simp [entryMark, hfm]

theorem scanEntryValue_idem {cur : Option DayValue} {n now : Nat}
    (h1 : 1 ≤ n) (hwf : wfPrior cur) :
    scanEntryValue (some (scanEntryValue cur n now)) n now = scanEntryValue cur n now := by
  by_cases hn1 : n = 1
  · subst hn1
    simp [scanEntryValue]
  · obtain ⟨l, N, heq, hc, hle, hfm⟩ := scanEntryValue_canonical (show 2 ≤ n by omega) hwf
    rw [heq]
    simp only [scanEntryValue, hn1, if_false]
    rw [scanMerge_canonical_le hc (by omega) hle, setFirstStatus_eq_self hfm]

theorem scanEntryValue_wf {cur : Option DayValue} {n now : Nat}
    (h1 : 1 ≤ n) (hwf : wfPrior cur) :
    wfPrior (some (scanEntryValue cur n now)) := by
  by_cases hn1 : n = 1
  · subst hn1
    exact Or.inr (Or.inl ⟨"P", by simp [scanEntryValue]⟩)
  · obtain ⟨l, N, heq, hc, _, _⟩ := scanEntryValue_canonical (show 2 ≤ n by omega) hwf
    exact Or.inr (Or.inr ⟨l, now, N, by rw [heq], hc⟩)

theorem stopEntryValue_canonical {cur : Option DayValue} {n now : Nat}
    (h2 : 2 ≤ n) (hwf : wfPrior cur) :
    ∃ l N, stopEntryValue cur n now = .sessionsDict l now ∧
      canonicalIds l N ∧ n ≤ N := by
  have hne : n ≠ 1 := by omega
  rcases hwf with rfl | ⟨s, rfl⟩ | ⟨l, u, m, rfl, hc⟩
  · exact ⟨stopBuildSessions none n, n, by simp [stopEntryValue, hne],
      stopBuild_canonical none n, Nat.le_refl n⟩
  · exact ⟨stopBuildSessions (some s) n, n, by simp [stopEntryValue, hne],
      stopBuild_canonical (some s) n, Nat.le_refl n⟩
  · exact ⟨stopMergeSessions l n, max m n, by simp [stopEntryValue, hne],
      stopMerge_canonical hc, Nat.le_max_right m n⟩

/-- the absence sweep writes an A mark for the target session whenever the
prior entry is absent, scalar, or structured without a mark for the target
session (a structured entry already carrying the target session is left
untouched by the insert-only loop). -/
theorem stopEntryValue_mark_absent {cur : Option DayValue} {n now : Nat} (h1 : 1 ≤ n)
    (hshape : cur = none ∨ (∃ s, cur = some (.str s)) ∨
      (∃ l u m, cur = some (.sessionsDict l u) ∧ canonicalIds l m ∧ m < n)) :
    entryMark (stopEntryValue cur n now) n = some "A" := by
  by_cases hn1 : n = 1
  · subst hn1
    simp [stopEntryValue, entryMark]
  · have hne : n ≠ 1 := hn1
    rcases hshape with rfl | ⟨s, rfl⟩ | ⟨l, u, m, rfl, hc, hm⟩
    · simp only [stopEntryValue, hne, if_false, entryMark]
      rw [stopBuild_firstMark none n n (by omega) (Nat.le_refl n)]
      simp
    · simp only [stopEntryValue, hne, if_false, entryMark]
      rw [stopBuild_firstMark (some s) n n (by omega) (Nat.le_refl n)]
      simp [hne]
    · simp only [stopEntryValue, hne, if_false, entryMark]
      rw [stopMerge_canonical_gt hc hm]
      rw [firstMark_append_of_not_mem (by rw [canonicalIds_mem hc]; omega)]
      have hmem : n ∈ segRange m n := mem_segRange.mpr ⟨by omega, Nat.le_refl n⟩
      rw [firstMark_map_of_mem stopTailMark (fun i => rfl) _ hmem]
      simp [stopTailMark]

/-- a structured entry already carrying the target session: the sweep only
rewrites the timestamp, leaving every mark as it was. -/
theorem stopEntryValue_existing {l : List SessionMark} {u m n now : Nat}
    (hc : canonicalIds l m) (h2 : 2 ≤ n) (hle : n ≤ m) :
    stopEntryValue (some (.sessionsDict l u)) n now = .sessionsDict l now := by
  have hne : n ≠ 1 := by omega
  simp only [stopEntryValue, hne, if_false]
  rw [stopMerge_canonical_le hc hle]

theorem findStudentRecord_id {l : List StudentRecord} {rid : String} {st : StudentRecord}
    (h : findStudentRecord l rid = some st) : st.id = rid := by
  induction l with
  | nil => simp [findStudentRecord] at h
  | cons s rest ih =>
    unfold findStudentRecord at h
    split at h
    · cases h; assumption
    · exact ih h

theorem findStudentRecord_updateFirst (l : List StudentRecord) (rid : String)
    (f : StudentRecord → StudentRecord) (hf : ∀ r, (f r).id = r.id) :
    findStudentRecord (updateFirstStudent l rid f) rid =
      (findStudentRecord l rid).map f := by
  induction l with
  | nil => rfl
  | cons s rest ih =>
    unfold updateFirstStudent findStudentRecord
    by_cases hs : s.id = rid
    · simp [hs, findStudentRecord, hf]
    · simp [hs, findStudentRecord, ih]

theorem updateFirstStudent_eq_self {l : List StudentRecord} {rid : String}
    {f : StudentRecord → StudentRecord}
    (h : ∀ st, findStudentRecord l rid = some st → f st = st) :
    updateFirstStudent l rid f = l := by
  induction l with
  | nil => rfl
  | cons s rest ih =>
    unfold updateFirstStudent
    by_cases hs : s.id = rid
    · rw [if_pos hs, h s (by simp [findStudentRecord, hs])]
    · rw [if_neg hs, ih]
      intro st hst
      exact h st (by simp [findStudentRecord, hs, hst])

/-- every record of the rewritten list is either the corresponding original
record, or the image of the list's first rid-match under f. -/
theorem updateFirstStudent_forall₂ (l : List StudentRecord) (rid : String)
    (f : StudentRecord → StudentRecord) :
    List.Forall₂ (fun a b => b = a ∨
      (a.id = rid ∧ findStudentRecord l rid = some a ∧ b = f a))
      l (updateFirstStudent l rid f) := by
  induction l with
  | nil => exact List.Forall₂.nil
  | cons s rest ih =>
    unfold updateFirstStudent
    by_cases hs : s.id = rid
    · rw [if_pos hs]
      refine List.Forall₂.cons (Or.inr ⟨hs, by simp [findStudentRecord, hs], rfl⟩) ?_
      refine (List.forall₂_same).mpr (fun x hx => Or.inl rfl)
    · rw [if_neg hs]
      refine List.Forall₂.cons (Or.inl rfl) ?_
      refine List.Forall₂.imp ?_ ih
      intro a b hab
      rcases hab with h | ⟨h1, h2, h3⟩
      · exact Or.inl h
      · exact Or.inr ⟨h1, by simp [findStudentRecord, hs, h2], h3⟩

theorem forall₂_map_self {α : Type} (l : List α) (g : α → α)
    (r : α → α → Prop) (h : ∀ x ∈ l, r x (g x)) :
    List.Forall₂ r l (l.map g) := by
  induction l with
  | nil => exact List.Forall₂.nil
  | cons x rest ih =>
    exact List.Forall₂.cons (h x (List.mem_cons_self x rest))
      (ih (fun y hy => h y (List.mem_cons_of_mem x hy)))

theorem alookup_aset_same_key {κ α : Type} [DecidableEq κ] (l : List (κ × α)) (k k' : κ)
    (v : α) : alookup (aset l k v) k' = if k = k' then some v else alookup l k' := by
  by_cases h : k = k'
  · subst h; simp [alookup_aset_self]
  · simp [h, alookup_aset_ne l k k' v (fun hc => h hc.symm)]

/-- overwriting the date entry of a structured-entry record with a scan or
stop value for session n ≥ 2 keeps every structured entry structured. -/
theorem withEntry_preserves_structured {st : StudentRecord} {date d : String}
    {entry : DayValue} (hst : structuredAt st d)
    (hentry : d = date → ∃ l u, entry = .sessionsDict l u) :
    structuredAt (withEntry st date entry) d := by
  obtain ⟨l, u, hl⟩ := hst
  unfold structuredAt withEntry
  simp only [alookup_aset_same_key]
  by_cases hd : date = d
  · obtain ⟨l', u', he⟩ := hentry hd.symm
    exact ⟨l', u', by simp [hd, he]⟩
  · exact ⟨l, u, by simp [hd, hl]⟩

theorem get_qr_session_put_self (σ : DBState) (cid date : String) (s : QRSession) :
    (σ.put_qr_session cid date s).get_qr_session cid date = some s := by
  simp [DBState.put_qr_session, DBState.get_qr_session, alookup_aset_self]

theorem get_class_put_qr (σ : DBState) (cid date : String) (s : QRSession) (cid' : String) :
    (σ.put_qr_session cid date s).get_class cid' = σ.get_class cid' := rfl

theorem get_enrollments_put_qr (σ : DBState) (cid date : String) (s : QRSession)
    (cid' : String) :
    (σ.put_qr_session cid date s).get_enrollments cid' = σ.get_enrollments cid' := rfl

theorem get_class_update_self (σ : DBState) (cid : String) (c : ClassData) :
    (σ.update_class cid c).get_class cid = some c := by
  simp [DBState.update_class, DBState.get_class, alookup_aset_self]

theorem get_enrollments_update_class (σ : DBState) (cid : String) (c : ClassData)
    (cid' : String) :
    (σ.update_class cid c).get_enrollments cid' = σ.get_enrollments cid' := rfl

theorem get_qr_session_update_class (σ : DBState) (cid : String) (c : ClassData)
    (cid' date : String) :
    (σ.update_class cid c).get_qr_session cid' date = σ.get_qr_session cid' date := rfl

/-- C5: for every class and date whose per-date attendance entries lie in
the specified data model (nonempty scalar strings, structured entries, or
absent), count_valid_sessions_for_date is the maximum over all students of
the per-entry count (non-null marks for structured entries, 1 for a scalar,
0 for absent) — never the sum across students. -/
theorem claim_c5_count_valid_max (c : ClassData) (date : String)
    (hshape : ∀ st ∈ c.students, (alookup st.attendance date).all specShaped = true) :
    count_valid_sessions_for_date c date =
      (c.students.map (fun st => claimEntryCount (alookup st.attendance date))).foldl max 0 := by
  rw [count_valid_eq_foldl_max]
  congr 1
  apply List.map_congr_left
  intro st hst
  have hsh := hshape st hst
  unfold dayContribution claimEntryCount
  cases halookup : alookup st.attendance date with
  | none => simp
  | some dv =>
    rw [halookup] at hsh
    simp only [Option.all_some] at hsh
    cases dv with
    | str s =>
      have : s.isEmpty = false := by
        simpa [specShaped] using hsh
      simp [DayValue.truthy, this]
    | sessionsDict l u => simp [DayValue.truthy]
    | statusDict stt cnt => simp [specShaped] at hsh

theorem claim_c5_witness :
    (∀ st ∈ exClass5.students, (alookup st.attendance exDate).all specShaped = true) ∧
    count_valid_sessions_for_date exClass5 exDate = 2 ∧
    (exClass5.students.map
      (fun st => claimEntryCount (alookup st.attendance exDate))).foldl max 0 = 2 ∧
    (exClass5.students.map
      (fun st => claimEntryCount (alookup st.attendance exDate))).foldl (· + ·) 0 = 3 :=
  ⟨by decide, by
    rw [claim_c5_count_valid_max exClass5 exDate (by decide)]
    decide, by decide, by decide⟩

/-- C6: reading an active session strictly before the rotation interval
elapses returns it unchanged and performs no write; reading it at or past
the interval stores and returns a refreshed session with a new code and
code_generated_at = now. -/
theorem claim_c6_rotation (σ : DBState) (cid date : String) (now : Nat)
    (newCode : String) (s : QRSession)
    (hs : σ.get_qr_session cid date = some s) (ha : s.status = "active")
    (hnew : newCode ≠ s.current_code) :
    ((now : Int) - (s.code_generated_at : Int) < (s.rotation_interval : Int) →
      get_active_qr_session σ cid date now newCode = (some s, σ)) ∧
    ((s.rotation_interval : Int) ≤ (now : Int) - (s.code_generated_at : Int) →
      ∃ s', get_active_qr_session σ cid date now newCode =
          (some s', σ.put_qr_session cid date s') ∧
        s'.current_code = newCode ∧ s'.current_code ≠ s.current_code ∧
        s'.code_generated_at = now ∧
        (σ.put_qr_session cid date s').get_qr_session cid date = some s' ∧
        (σ.put_qr_session cid date s').qr_put_count = σ.qr_put_count + 1) := by
  constructor
  · intro hlt
    exact get_active_qr_session_fresh σ cid date now newCode s hs ha hlt
  · intro hge
    refine ⟨rotatedSession s newCode now,
      get_active_qr_session_rotate σ cid date now newCode s hs ha hge,
      rfl, hnew, rfl, get_qr_session_put_self _ _ _ _, rfl⟩

theorem claim_c6_witness :
    (get_active_qr_session exState "c1" exDate 104 "ZZZZ9999" = (some exSession, exState)) ∧
    (∃ s', get_active_qr_session exState "c1" exDate 106 "ZZZZ9999" =
        (some s', exState.put_qr_session "c1" exDate s') ∧
      s'.current_code = "ZZZZ9999" ∧ s'.current_code ≠ exSession.current_code ∧
      s'.code_generated_at = 106 ∧
      (exState.put_qr_session "c1" exDate s').get_qr_session "c1" exDate = some s' ∧
      (exState.put_qr_session "c1" exDate s').qr_put_count = exState.qr_put_count + 1) :=
  ⟨(claim_c6_rotation exState "c1" exDate 104 "ZZZZ9999" exSession
      (by decide) (by decide) (by decide)).1 (by decide),
   (claim_c6_rotation exState "c1" exDate 106 "ZZZZ9999" exSession
      (by decide) (by decide) (by decide)).2 (by decide)⟩

/-- C10: when the lazy rotation fires, only current_code and
code_generated_at change; every other field of the session is returned and
persisted unchanged, and no other record of the store moves. -/
theorem claim_c10_rotation_frame (σ σ' : DBState) (cid date : String) (now : Nat)
    (newCode : String) (s s' : QRSession)
    (hs : σ.get_qr_session cid date = some s) (ha : s.status = "active")
    (hge : (s.rotation_interval : Int) ≤ (now : Int) - (s.code_generated_at : Int))
    (h : get_active_qr_session σ cid date now newCode = (some s', σ')) :
    s'.session_number = s.session_number ∧ s'.scanned_students = s.scanned_students ∧
    s'.status = s.status ∧ s'.started_at = s.started_at ∧
    s'.rotation_interval = s.rotation_interval ∧ s'.teacher_id = s.teacher_id ∧
    s'.last_scan_at = s.last_scan_at ∧ s'.class_id = s.class_id ∧
    s'.date = s.date ∧ s'.stopped_at = s.stopped_at ∧
    s'.current_code = newCode ∧ s'.code_generated_at = now ∧
    σ'.get_qr_session cid date = some s' ∧
    σ'.classes = σ.classes ∧ σ'.enrollments = σ.enrollments := by
  rw [get_active_qr_session_rotate σ cid date now newCode s hs ha hge] at h
  obtain ⟨h1, h2⟩ := Prod.mk.injEq .. |>.mp h
  obtain rfl : s' = rotatedSession s newCode now := by
    cases h1; rfl
  subst h2
  refine ⟨rfl, rfl, rfl, rfl, rfl, rfl, rfl, rfl, rfl, rfl, rfl, rfl,
    get_qr_session_put_self _ _ _ _, rfl, rfl⟩

theorem claim_c10_witness :
    ∃ s' σ', get_active_qr_session exState "c1" exDate 106 "ZZZZ9999" = (some s', σ') ∧
      s'.session_number = exSession.session_number ∧
      s'.scanned_students = exSession.scanned_students ∧
      s'.status = exSession.status ∧ s'.started_at = exSession.started_at ∧
      s'.rotation_interval = exSession.rotation_interval ∧
      s'.teacher_id = exSession.teacher_id ∧
      s'.last_scan_at = exSession.last_scan_at ∧
      s'.current_code = "ZZZZ9999" ∧ s'.code_generated_at = 106 ∧
      σ'.get_qr_session "c1" exDate = some s' ∧ σ'.classes = exState.classes := by
  refine ⟨rotatedSession exSession "ZZZZ9999" 106,
    exState.put_qr_session "c1" exDate (rotatedSession exSession "ZZZZ9999" 106),
    get_active_qr_session_rotate exState "c1" exDate 106 "ZZZZ9999" exSession
      (by decide) (by decide) (by decide), ?_⟩
  have := claim_c10_rotation_frame exState
    (exState.put_qr_session "c1" exDate (rotatedSession exSession "ZZZZ9999" 106))
    "c1" exDate 106 "ZZZZ9999" exSession (rotatedSession exSession "ZZZZ9999" 106)
    (by decide) (by decide) (by decide)
    (get_active_qr_session_rotate exState "c1" exDate 106 "ZZZZ9999" exSession
      (by decide) (by decide) (by decide))
  exact ⟨this.1, this.2.1, this.2.2.1, this.2.2.2.1, this.2.2.2.2.1, this.2.2.2.2.2.1,
    this.2.2.2.2.2.2.1, this.2.2.2.2.2.2.2.2.2.2.1, this.2.2.2.2.2.2.2.2.2.2.2.1,
    this.2.2.2.2.2.2.2.2.2.2.2.2.1, this.2.2.2.2.2.2.2.2.2.2.2.2.2.1⟩

/-- C7: every failure of start, scan, or stop returns the storage state
exactly as it was (no write precedes a raise); in particular a start with a
teacher id that does not own the class fails with the unauthorized error and
persists nothing. -/
theorem claim_c7_failure_atomicity (σ : DBState) (cid tid sid date : String)
    (ri now : Nat) (code : String) (input : ScanInput) :
    (∀ e σ', start_qr_session σ cid tid date ri now code = (.error e, σ') → σ' = σ) ∧
    (∀ e σ', scan_qr_code σ sid cid input date now = (.error e, σ') → σ' = σ) ∧
    (∀ e σ', stop_qr_session σ cid tid date now = (.error e, σ') → σ' = σ) ∧
    (∀ c, σ.get_class cid = some c → c.teacher_id ≠ tid →
      start_qr_session σ cid tid date ri now code =
        (.error "Class not found or unauthorized", σ)) := by
  refine ⟨fun e σ' h => start_qr_session_error_frame h,
    fun e σ' h => scan_qr_code_error_frame h,
    fun e σ' h => stop_qr_session_error_frame h,
    fun c hc hne => ?_⟩
  simp [start_qr_session, hc, hne]

theorem claim_c7_witness :
    exState.get_class "c1" = some exClass ∧ exClass.teacher_id ≠ "intruder" ∧
    start_qr_session exState "c1" "intruder" exDate 5 0 "CODE9999" =
      (.error "Class not found or unauthorized", exState) ∧
    ((scan_qr_code exState "s1" "c1" (.raw "WRONG") exDate 0).2 = exState) :=
  ⟨by decide, by decide,
   (claim_c7_failure_atomicity exState "c1" "intruder" "s1" exDate 5 0 "CODE9999"
      (.raw "WRONG")).2.2.2 exClass (by decide) (by decide),
   (claim_c7_failure_atomicity exState "c1" "intruder" "s1" exDate 5 0 "CODE9999"
      (.raw "WRONG")).2.1 "Invalid or expired QR code"
      (scan_qr_code exState "s1" "c1" (.raw "WRONG") exDate 0).2 (by rfl)⟩

/-- C8 counterexample: for an input that parses as a JSON object without a
code member, the claim's fallback predicts the raw text is compared — equal
to current_code here, so the claim says the scan must not fail with the
invalid-code error — yet the source compares the absent member (None) and
rejects the scan. -/
theorem claim_c8_counterexample :
    claimExtractCode (ScanInput.obj none "OBJRAW") = some exSession8.current_code ∧
    exState8.get_qr_session "c1" exDate = some exSession8 ∧
    exSession8.status = "active" ∧
    scan_qr_code exState8 "s1" "c1" (ScanInput.obj none "OBJRAW") exDate 0 =
      (.error "Invalid or expired QR code", exState8) :=
  ⟨rfl, rfl, rfl, rfl⟩

/-- C8 amended: the value compared against current_code is the object's code
member when the input parses as a JSON object (absent member giving a null
that matches no code), and the whole input in every other case; against an
active session the scan fails with the invalid-code error exactly when that
compared value differs from current_code. -/
theorem claim_c8_code_validation (σ : DBState) (sid cid : String) (input : ScanInput)
    (date : String) (now : Nat) (sess : QRSession)
    (hs : σ.get_qr_session cid date = some sess) (ha : sess.status = "active") :
    (∀ c r, extractCode (ScanInput.obj c r) = c) ∧
    (∀ s, extractCode (ScanInput.raw s) = some s) ∧
    ((scan_qr_code σ sid cid input date now).1 = .error "Invalid or expired QR code" ↔
      extractCode input ≠ some sess.current_code) := by
  refine ⟨fun c r => rfl, fun s => rfl, ?_⟩
  unfold scan_qr_code
  rw [hs]
  by_cases hcode : extractCode input = some sess.current_code
  · simp only [ha, ne_eq, not_true_eq_false, if_false, hcode, not_false_eq_true, if_true]
    constructor
    · intro hres
      exfalso
      revert hres
      repeat' split
      all_goals simp
    · intro hne
      exact hne.elim
  · have hne : some sess.current_code ≠ extractCode input := fun h => hcode h.symm
    simp only [ha, ne_eq, not_true_eq_false, if_false, hne, not_false_eq_true, if_true]
    simpa using hcode

theorem claim_c8_amended_witness :
    ((scan_qr_code exState "s1" "c1" (ScanInput.raw "WRONG") exDate 0).1 =
      .error "Invalid or expired QR code" ↔
      extractCode (ScanInput.raw "WRONG") ≠ some exSession.current_code) :=
  (claim_c8_code_validation exState "s1" "c1" (ScanInput.raw "WRONG") exDate 0 exSession
    rfl rfl).2.2

theorem stopEntryValue_one (cur : Option DayValue) (now : Nat) :
    stopEntryValue cur 1 now = .str "A" := rfl

theorem dayContribution_withEntry_strA (date : String) (st : StudentRecord) :
    dayContribution date (withEntry st date (.str "A")) = 1 := by
  simp only [dayContribution, withEntry, alookup_aset_self]
  decide

/-- after stopping a first session with no scans over a date with no valid
marks, exactly the actively enrolled students carry a scalar A, so the
valid-session count becomes 1. -/
theorem count_after_stop_sweep_one (c : ClassData) (date : String)
    (activeIds scannedIds : List String) (now' : Nat)
    (hcount : count_valid_sessions_for_date c date = 0)
    (hex : ∃ st ∈ c.students, st.id ∈ activeIds ∧ st.id ∉ scannedIds) :
    count_valid_sessions_for_date (stopClassAfter c activeIds scannedIds date 1 now') date
      = 1 := by
  rw [count_valid_eq_foldl_max] at hcount ⊢
  have hzero := foldl_max_eq_zero_iff.mp hcount
  unfold stopClassAfter
  simp only [List.map_map]
  apply foldl_max_eq_of
  · intro x hx
    obtain ⟨st, hst, rfl⟩ := List.mem_map.mp hx
    simp only [Function.comp]
    split
    · rw [stopEntryValue_one, dayContribution_withEntry_strA]
    · exact hzero _ (List.mem_map.mpr ⟨st, hst, rfl⟩) ▸ Nat.zero_le 1
  · obtain ⟨st, hst, hactive, hscan⟩ := hex
    apply List.mem_map.mpr
    refine ⟨st, hst, ?_⟩
    simp only [Function.comp]
    rw [if_pos ⟨hactive, hscan⟩, stopEntryValue_one, dayContribution_withEntry_strA]

/-- C1: a successful start numbers the session count_valid_sessions + 1; on
a date with no valid marks the first start yields number 1, and after that
session is stopped (writing a mark for every actively enrolled student with
a record) a new start on the same date yields number 2. -/
theorem claim_c1_session_numbering :
    (∀ σ cid tid date ri now code c sess σ',
      DBState.get_class σ cid = some c →
      start_qr_session σ cid tid date ri now code = (.ok sess, σ') →
      sess.session_number = count_valid_sessions_for_date c date + 1) ∧
    (∀ σ cid tid date ri ri' now now' now'' code code' c,
      DBState.get_class σ cid = some c → c.teacher_id = tid →
      c.enrollment_mode = "enrollment_via_id" →
      count_valid_sessions_for_date c date = 0 →
      optActive (DBState.get_qr_session σ cid date) = false →
      (∃ st ∈ c.students, st.id ∈ activeRecordIds (σ.get_enrollments cid)) →
      ∃ sess₁ σ₁ r σ₂ sess₂ σ₃,
        start_qr_session σ cid tid date ri now code = (.ok sess₁, σ₁) ∧
        sess₁.session_number = 1 ∧
        stop_qr_session σ₁ cid tid date now' = (.ok r, σ₂) ∧
        start_qr_session σ₂ cid tid date ri' now'' code' = (.ok sess₂, σ₃) ∧
        sess₂.session_number = 2) := by
  constructor
  · intro σ cid tid date ri now code c sess σ' hc h
    unfold start_qr_session at h
    rw [hc] at h
    repeat' (first | split at h | dsimp only at h)
    any_goals simp_all [newQRSession]
    all_goals rw [← h.1]
  · intro σ cid tid date ri ri' now now' now'' code code' c hc ht hm hcount hna hex
    have hcount1 : count_valid_sessions_for_date c date + 1 = 1 := by omega
    have h1 := start_qr_session_ok σ cid tid date ri now code c hc ht hm hna
    rw [hcount1] at h1
    have hs₁ : (σ.put_qr_session cid date
        (newQRSession cid tid date ri now code 1)).get_qr_session cid date =
        some (newQRSession cid tid date ri now code 1) :=
      get_qr_session_put_self σ cid date _
    have hc₁ : (σ.put_qr_session cid date
        (newQRSession cid tid date ri now code 1)).get_class cid = some c := hc
    have hstop := stop_qr_session_ok
      (σ.put_qr_session cid date (newQRSession cid tid date ri now code 1))
      cid tid date now' (newQRSession cid tid date ri now code 1) c hs₁ rfl rfl hc₁
    rw [show (newQRSession cid tid date ri now code 1).scanned_students = [] from rfl,
      show (newQRSession cid tid date ri now code 1).session_number = 1 from rfl,
      get_enrollments_put_qr] at hstop
    have hcount₂ : count_valid_sessions_for_date
        (stopClassAfter c (activeRecordIds (σ.get_enrollments cid)) [] date 1 now') date
        = 1 := by
      apply count_after_stop_sweep_one c date _ _ now' hcount
      obtain ⟨st, hst, ha⟩ := hex
      exact ⟨st, hst, ha, List.not_mem_nil _⟩
    set σ₂ := ((σ.put_qr_session cid date
        (newQRSession cid tid date ri now code 1)).update_class cid
          (stopClassAfter c (activeRecordIds (σ.get_enrollments cid)) [] date 1 now')
        ).put_qr_session cid date
          { newQRSession cid tid date ri now code 1 with
            status := "stopped", stopped_at := some now' } with hσ₂
    have hc₂ : σ₂.get_class cid = some
        (stopClassAfter c (activeRecordIds (σ.get_enrollments cid)) [] date 1 now') := by
      rw [hσ₂, get_class_put_qr]
      exact get_class_update_self _ _ _
    have hna₂ : optActive (σ₂.get_qr_session cid date) = false := by
      rw [hσ₂, get_qr_session_put_self]
      rfl
    have h3 := start_qr_session_ok σ₂ cid tid date ri' now'' code'
      (stopClassAfter c (activeRecordIds (σ.get_enrollments cid)) [] date 1 now')
      hc₂ ht hm hna₂
    rw [hcount₂] at h3
    exact ⟨newQRSession cid tid date ri now code 1, _, _, σ₂,
      newQRSession cid tid date ri' now'' code' (1 + 1), _, h1, rfl, hstop, h3, rfl⟩

theorem claim_c1_witness :
    count_valid_sessions_for_date exClass exDate = 0 ∧
    (∃ sess₁ σ₁ r σ₂ sess₂ σ₃,
      start_qr_session exState0 "c1" "t1" exDate 5 0 "CODEAAAA" = (.ok sess₁, σ₁) ∧
      sess₁.session_number = 1 ∧
      stop_qr_session σ₁ "c1" "t1" exDate 10 = (.ok r, σ₂) ∧
      start_qr_session σ₂ "c1" "t1" exDate 5 20 "CODEBBBB" = (.ok sess₂, σ₃) ∧
      sess₂.session_number = 2) :=
  ⟨by decide,
   claim_c1_session_numbering.2 exState0 "c1" "t1" exDate 5 5 0 10 20 "CODEAAAA" "CODEBBBB"
     exClass (by decide) (by decide) (by decide) (by decide) (by decide)
     ⟨exStudent "r1", by decide, by decide⟩⟩

/-- C2: against an active session, a second scan by the same student with
the same valid code is a no-op: scanned_students holds the student exactly
once after either call, the student's mark for the session reads P after
either call with the very same stored entry, and the class and session
stores after the second call equal those after the first. -/
theorem claim_c2_scan_idempotent (σ : DBState) (sid cid date : String) (input : ScanInput)
    (now : Nat) (sess : QRSession) (e : Enrollment) (c : ClassData) (st : StudentRecord)
    (hs : σ.get_qr_session cid date = some sess) (ha : sess.status = "active")
    (hn : 1 ≤ sess.session_number)
    (hcode : extractCode input = some sess.current_code)
    (he : findActiveEnrollment (σ.get_enrollments cid) sid = some e)
    (hc : σ.get_class cid = some c)
    (hst : findStudentRecord c.students e.student_record_id = some st)
    (hns : e.student_record_id ∉ sess.scanned_students)
    (hwf : wfPrior (alookup st.attendance date)) :
    ∃ r₁ σ₁ r₂ σ₂,
      scan_qr_code σ sid cid input date now = (.ok r₁, σ₁) ∧
      scan_qr_code σ₁ sid cid input date now = (.ok r₂, σ₂) ∧
      (∃ sess₁, σ₁.get_qr_session cid date = some sess₁ ∧
        sess₁.scanned_students.count e.student_record_id = 1) ∧
      (∃ sess₂, σ₂.get_qr_session cid date = some sess₂ ∧
        sess₂.scanned_students.count e.student_record_id = 1) ∧
      (∃ c₁ st₁ dv₁, σ₁.get_class cid = some c₁ ∧
        findStudentRecord c₁.students e.student_record_id = some st₁ ∧
        alookup st₁.attendance date = some dv₁ ∧
        entryMark dv₁ sess.session_number = some "P" ∧
        (∃ c₂ st₂, σ₂.get_class cid = some c₂ ∧
          findStudentRecord c₂.students e.student_record_id = some st₂ ∧
          alookup st₂.attendance date = some dv₁)) ∧
      σ₂.classes = σ₁.classes ∧ σ₂.qr_sessions = σ₁.qr_sessions := by
  have h₁ := scan_qr_code_ok σ sid cid input date now sess e c st hs ha hcode he hc hst
  set rid := e.student_record_id with hrd
  set n := sess.session_number with hnd
  set entry := scanEntryValue (alookup st.attendance date) n now with hent
  set c₁ := scanClassAfter c rid date entry with hc₁def
  set sess₁ := scanSessionAfter sess rid now with hs₁def
  set σ₁ := (σ.update_class cid c₁).put_qr_session cid date sess₁ with hσ₁def
  have hget_sess₁ : σ₁.get_qr_session cid date = some sess₁ := by
    rw [hσ₁def]
    exact get_qr_session_put_self _ _ _ _
  have hsess₁_status : sess₁.status = "active" := ha
  have hsess₁_code : sess₁.current_code = sess.current_code := rfl
  have hsess₁_num : sess₁.session_number = n := rfl
  have henr₁ : σ₁.get_enrollments cid = σ.get_enrollments cid := rfl
  have hclass₁ : σ₁.get_class cid = some c₁ := by
    rw [hσ₁def, get_class_put_qr]
    exact get_class_update_self _ _ _
  have hst₁ : findStudentRecord c₁.students rid = some (withEntry st date entry) := by
    rw [hc₁def]
    show findStudentRecord
      (updateFirstStudent c.students rid (fun r => withEntry r date entry)) rid =
      some (withEntry st date entry)
    rw [findStudentRecord_updateFirst c.students rid (fun r => withEntry r date entry)
      (fun r => rfl), hst]
    rfl
  have hlookup₁ : alookup (withEntry st date entry).attendance date = some entry := by
    unfold withEntry
    exact alookup_aset_self _ _ _
  have hidem : scanEntryValue (alookup (withEntry st date entry).attendance date)
      sess₁.session_number now = entry := by
    rw [hlookup₁, hsess₁_num, hent]
    exact scanEntryValue_idem hn hwf
  have h₂ := scan_qr_code_ok σ₁ sid cid input date now sess₁ e c₁ (withEntry st date entry)
    hget_sess₁ hsess₁_status (by rw [hsess₁_code]; exact hcode) (by rw [henr₁]; exact he)
    hclass₁ hst₁
  rw [hidem] at h₂
  have hmem₁ : rid ∈ sess₁.scanned_students := by
    rw [hs₁def]
    unfold scanSessionAfter
    simp [hns]
  have hsess₂_eq : scanSessionAfter sess₁ rid now = sess₁ := by
    have hlast : sess₁.last_scan_at = some now := rfl
    unfold scanSessionAfter
    rw [if_pos hmem₁, ← hlast]
  have hf_self : ∀ s, findStudentRecord c₁.students rid = some s →
      withEntry s date entry = s := by
    intro s hsome
    rw [hst₁] at hsome
    cases hsome
    unfold withEntry
    rw [aset_aset_self]
  have hcls_eq : scanClassAfter c₁ rid date entry = c₁ := by
    conv_rhs => rw [hc₁def]
    unfold scanClassAfter
    rw [show (scanClassAfter c rid date entry).students =
      updateFirstStudent c.students rid (fun r => withEntry r date entry) from rfl]
    rw [hc₁def] at hf_self
    unfold scanClassAfter at hf_self
    rw [updateFirstStudent_eq_self hf_self]
    rfl
  rw [hcls_eq, hsess₂_eq] at h₂
  have hcount₁ : sess₁.scanned_students.count rid = 1 := by
    rw [hs₁def]
    unfold scanSessionAfter
    rw [if_neg hns, List.count_append, List.count_eq_zero.mpr hns]
    simp
  refine ⟨scanOkResult n date, σ₁, scanOkResult sess₁.session_number date,
    (σ₁.update_class cid c₁).put_qr_session cid date sess₁, h₁, h₂, ?_, ?_, ?_, ?_, ?_⟩
  · exact ⟨sess₁, hget_sess₁, hcount₁⟩
  · exact ⟨sess₁, get_qr_session_put_self _ _ _ _, hcount₁⟩
  · refine ⟨c₁, withEntry st date entry, entry, hclass₁, hst₁, hlookup₁, ?_, ?_⟩
    · rw [hent]
      exact scanEntryValue_mark hn hwf
    · refine ⟨c₁, withEntry st date entry, ?_, hst₁, hlookup₁⟩
      rw [get_class_put_qr]
      exact get_class_update_self _ _ _
  · show aset σ₁.classes cid c₁ = σ₁.classes
    rw [hσ₁def]
    show aset (aset σ.classes cid c₁) cid c₁ = aset σ.classes cid c₁
    exact aset_aset_self _ _ _ _
  · show aset σ₁.qr_sessions (cid, date) sess₁ = σ₁.qr_sessions
    rw [hσ₁def]
    show aset (aset σ.qr_sessions (cid, date) sess₁) (cid, date) sess₁ =
      aset σ.qr_sessions (cid, date) sess₁
    exact aset_aset_self _ _ _ _

theorem claim_c2_witness :
    ∃ r₁ σ₁ r₂ σ₂,
      scan_qr_code exStateFresh "s1" "c1" (.raw "CODE1234") exDate 42 = (.ok r₁, σ₁) ∧
      scan_qr_code σ₁ "s1" "c1" (.raw "CODE1234") exDate 42 = (.ok r₂, σ₂) ∧
      (∃ sess₁, σ₁.get_qr_session "c1" exDate = some sess₁ ∧
        sess₁.scanned_students.count "r1" = 1) ∧
      (∃ sess₂, σ₂.get_qr_session "c1" exDate = some sess₂ ∧
        sess₂.scanned_students.count "r1" = 1) ∧
      (∃ c₁ st₁ dv₁, σ₁.get_class "c1" = some c₁ ∧
        findStudentRecord c₁.students "r1" = some st₁ ∧
        alookup st₁.attendance exDate = some dv₁ ∧
        entryMark dv₁ exSessionFresh.session_number = some "P" ∧
        (∃ c₂ st₂, σ₂.get_class "c1" = some c₂ ∧
          findStudentRecord c₂.students "r1" = some st₂ ∧
          alookup st₂.attendance exDate = some dv₁)) ∧
      σ₂.classes = σ₁.classes ∧ σ₂.qr_sessions = σ₁.qr_sessions :=
  claim_c2_scan_idempotent exStateFresh "s1" "c1" exDate (.raw "CODE1234") 42
    exSessionFresh { student_id := "s1", student_record_id := "r1", status := "active" }
    exClass (exStudent "r1") (by decide) (by decide) (by decide) (by decide) (by decide)
    (by decide) (by decide) (by decide) (Or.inl (by decide))

/-- C3 counterexample: an actively enrolled, unscanned student whose
structured entry already carries a mark for the running session number: stop
succeeds and counts the student as absent, yet the entry for session 2 still
reads P, not the claimed A — the insert-only sweep never overwrites an
existing mark. -/
theorem claim_c3_counterexample :
    (stop_qr_session exState3 "c1" "t1" exDate 50).1 =
      .ok { success := true, scanned_count := 0, absent_count := 1,
            date := exDate, session_number := 2 } ∧
    markOfState (stop_qr_session exState3 "c1" "t1" exDate 50).2 "c1" "r1" exDate 2 =
      some "P" :=
  ⟨rfl, rfl⟩

/-- C3 amended: stop sweeps exactly the records whose id lies in the active
enrollments' record ids minus scanned_students; the Class is persisted once
(one update_class call) carrying every processed student; each swept student
whose entry is absent, scalar, or structured without the target session ends
with mark A for session_number, while a structured entry already carrying
the target session keeps its stored marks; the returned counts are the
deduplicated scan count and the number of swept records. -/
theorem claim_c3_stop_absence (σ : DBState) (cid tid date : String) (now : Nat)
    (sess : QRSession) (c : ClassData)
    (hs : σ.get_qr_session cid date = some sess) (ha : sess.status = "active")
    (ht : sess.teacher_id = tid) (hc : σ.get_class cid = some c) :
    stop_qr_session σ cid tid date now =
      (.ok { success := true, scanned_count := sess.scanned_students.dedup.length,
             absent_count := (absentTargets c.students
               (activeRecordIds (σ.get_enrollments cid)) sess.scanned_students).length,
             date := date, session_number := sess.session_number },
       (σ.update_class cid
           (stopClassAfter c (activeRecordIds (σ.get_enrollments cid))
             sess.scanned_students date sess.session_number now)).put_qr_session
         cid date { sess with status := "stopped", stopped_at := some now }) ∧
    (stop_qr_session σ cid tid date now).2.class_put_count = σ.class_put_count + 1 ∧
    (∀ st : StudentRecord,
      st.id ∈ activeRecordIds (σ.get_enrollments cid) →
      st.id ∉ sess.scanned_students →
      1 ≤ sess.session_number →
      (alookup st.attendance date = none ∨
       (∃ s, alookup st.attendance date = some (.str s)) ∨
       (∃ l u m, alookup st.attendance date = some (.sessionsDict l u) ∧
         canonicalIds l m ∧ m < sess.session_number)) →
      entryMark (stopEntryValue (alookup st.attendance date) sess.session_number now)
        sess.session_number = some "A") ∧
    (∀ l u m, canonicalIds l m → 2 ≤ sess.session_number → sess.session_number ≤ m →
      stopEntryValue (some (.sessionsDict l u)) sess.session_number now =
        .sessionsDict l now) := by
  have hok := stop_qr_session_ok σ cid tid date now sess c hs ha ht hc
  refine ⟨hok, ?_, ?_, ?_⟩
  · rw [hok]
    rfl
  · intro st hactive hscan h1 hshape
    apply stopEntryValue_mark_absent h1
    rcases hshape with h | ⟨s, h⟩ | ⟨l, u, m, h, hcan, hm⟩
    · exact Or.inl h
    · exact Or.inr (Or.inl ⟨s, h⟩)
    · exact Or.inr (Or.inr ⟨l, u, m, h, hcan, hm⟩)
  · intro l u m hcan h2 hle
    exact stopEntryValue_existing hcan h2 hle

theorem claim_c3_witness :
    ∃ r σ', stop_qr_session exState "c1" "t1" exDate 50 = (.ok r, σ') ∧
      r.scanned_count = 2 ∧ r.absent_count = 1 ∧ r.session_number = 1 ∧
      σ'.class_put_count = exState.class_put_count + 1 ∧
      markOfState σ' "c1" "r3" exDate 1 = some "A" ∧
      markOfState σ' "c1" "r3" exDate 1 =
        entryMark (stopEntryValue (alookup (exStudent "r3").attendance exDate) 1 50) 1 := by
  have h := claim_c3_stop_absence exState "c1" "t1" exDate 50 exSession exClass
    (by decide) (by decide) (by decide) (by decide)
  exact ⟨_, _, h.1, by decide, by decide, by decide, by decide, by decide, by decide⟩

/-- a successful scan happened along the fully validated path. -/
theorem scan_qr_code_ok_inv {σ σ' : DBState} {sid cid date : String} {input : ScanInput}
    {now : Nat} {r : ScanResult}
    (h : scan_qr_code σ sid cid input date now = (.ok r, σ')) :
    ∃ sess e c st, σ.get_qr_session cid date = some sess ∧ sess.status = "active" ∧
      extractCode input = some sess.current_code ∧
      findActiveEnrollment (σ.get_enrollments cid) sid = some e ∧
      σ.get_class cid = some c ∧
      findStudentRecord c.students e.student_record_id = some st ∧
      r = scanOkResult sess.session_number date ∧
      σ' = (σ.update_class cid (scanClassAfter c e.student_record_id date
          (scanEntryValue (alookup st.attendance date) sess.session_number now))
        ).put_qr_session cid date (scanSessionAfter sess e.student_record_id now) := by
  cases hsess : σ.get_qr_session cid date with
  | none => simp [scan_qr_code, hsess] at h
  | some sess =>
    by_cases hstat : sess.status = "active"
    case neg => simp [scan_qr_code, hsess, hstat] at h
    case pos =>
    by_cases hcode : extractCode input = some sess.current_code
    case neg =>
      have hcc : some sess.current_code ≠ extractCode input := fun hq => hcode hq.symm
      simp [scan_qr_code, hsess, hstat, hcc] at h
    case pos =>
    cases he : findActiveEnrollment (σ.get_enrollments cid) sid with
    | none => simp [scan_qr_code, hsess, hstat, hcode.symm, he] at h
    | some e =>
    cases hc : σ.get_class cid with
    | none => simp [scan_qr_code, hsess, hstat, hcode.symm, he, hc] at h
    | some c =>
    cases hst : findStudentRecord c.students e.student_record_id with
    | none => simp [scan_qr_code, hsess, hstat, hcode.symm, he, hc, hst] at h
    | some st =>
      rw [scan_qr_code_ok σ sid cid input date now sess e c st hsess hstat hcode he hc hst]
        at h
      obtain ⟨h1, h2⟩ := Prod.mk.injEq .. |>.mp h
      exact ⟨sess, e, c, st, rfl, hstat, hcode, rfl, rfl, hst,
        (Except.ok.inj h1).symm, h2.symm⟩

/-- a successful stop happened along the fully validated path. -/
theorem stop_qr_session_ok_inv {σ σ' : DBState} {cid tid date : String}
    {now : Nat} {r : StopResult}
    (h : stop_qr_session σ cid tid date now = (.ok r, σ')) :
    ∃ sess c, σ.get_qr_session cid date = some sess ∧ sess.status = "active" ∧
      sess.teacher_id = tid ∧ σ.get_class cid = some c ∧
      r = { success := true, scanned_count := sess.scanned_students.dedup.length,
            absent_count := (absentTargets c.students
              (activeRecordIds (σ.get_enrollments cid)) sess.scanned_students).length,
            date := date, session_number := sess.session_number } ∧
      σ' = (σ.update_class cid
          (stopClassAfter c (activeRecordIds (σ.get_enrollments cid))
            sess.scanned_students date sess.session_number now)
        ).put_qr_session cid date { sess with status := "stopped", stopped_at := some now } := by
  cases hsess : σ.get_qr_session cid date with
  | none => simp [stop_qr_session, hsess] at h
  | some sess =>
    by_cases hstat : sess.status = "active"
    case neg => simp [stop_qr_session, hsess, hstat] at h
    case pos =>
    by_cases hteach : sess.teacher_id = tid
    case neg => simp [stop_qr_session, hsess, hstat, hteach] at h
    case pos =>
    cases hc : σ.get_class cid with
    | none => simp [stop_qr_session, hsess, hstat, hteach, hc] at h
    | some c =>
      rw [stop_qr_session_ok σ cid tid date now sess c hsess hstat hteach hc] at h
      obtain ⟨h1, h2⟩ := Prod.mk.injEq .. |>.mp h
      exact ⟨sess, c, rfl, hstat, hteach, rfl, (Except.ok.inj h1).symm, h2.symm⟩

/-- C4 counterexample: with a session-1 QR session active, a student whose
entry is already structured scans, and the operation replaces the structured
entry with the scalar P — the structured form does revert to scalar. -/
theorem claim_c4_counterexample :
    entryOfState exState4 "c1" "r1" exDate = some (.sessionsDict
      [{ id := "session_1", name := "QR Session 1", status := none }] 0) ∧
    ∃ r σ', scan_qr_code exState4 "s1" "c1" (.raw "CODE1234") exDate 60 = (.ok r, σ') ∧
      entryOfState σ' "c1" "r1" exDate = some (.str "P") :=
  ⟨rfl, _, _, rfl, rfl⟩

/-- C4 amended: for a running session whose session_number is at least 2,
neither a successful scan nor a successful stop ever replaces a structured
attendance entry with a scalar: record by record, every date that was
structured before is structured after.  (A session-1 operation does
overwrite the entry with a scalar, as the counterexample shows.) -/
theorem claim_c4_structured_persistence (σ : DBState) (sid cid tid date : String)
    (input : ScanInput) (now : Nat) (sess : QRSession)
    (hs : σ.get_qr_session cid date = some sess)
    (h2 : 2 ≤ sess.session_number) :
    (∀ r σ' c c', scan_qr_code σ sid cid input date now = (.ok r, σ') →
      σ.get_class cid = some c → σ'.get_class cid = some c' →
      List.Forall₂ (fun a b => ∀ d, structuredAt a d → structuredAt b d)
        c.students c'.students) ∧
    (∀ r σ' c c', stop_qr_session σ cid tid date now = (.ok r, σ') →
      σ.get_class cid = some c → σ'.get_class cid = some c' →
      List.Forall₂ (fun a b => ∀ d, structuredAt a d → structuredAt b d)
        c.students c'.students) := by
  have hne : sess.session_number ≠ 1 := by omega
  constructor
  · intro r σ' c c' h hc hc'
    obtain ⟨sess₀, e, c₀, st, hs₀, _, _, _, hc₀, hst₀, _, hσ'⟩ := scan_qr_code_ok_inv h
    obtain rfl : sess = sess₀ := Option.some.inj (hs.symm.trans hs₀)
    obtain rfl : c = c₀ := Option.some.inj (hc.symm.trans hc₀)
    have hc'' : σ'.get_class cid = some (scanClassAfter c e.student_record_id date
        (scanEntryValue (alookup st.attendance date) sess.session_number now)) := by
      rw [hσ', get_class_put_qr]
      exact get_class_update_self _ _ _
    obtain rfl : c' = scanClassAfter c e.student_record_id date
        (scanEntryValue (alookup st.attendance date) sess.session_number now) := by
      exact (Option.some.inj (hc''.symm.trans hc')).symm
    unfold scanClassAfter
    refine List.Forall₂.imp ?_ (updateFirstStudent_forall₂ c.students e.student_record_id
      (fun r => withEntry r date
        (scanEntryValue (alookup st.attendance date) sess.session_number now)))
    intro a b hab d hsd
    rcases hab with rfl | ⟨_, hfind, rfl⟩
    · exact hsd
    · obtain rfl : a = st := Option.some.inj (hfind.symm.trans hst₀)
      apply withEntry_preserves_structured hsd
      intro hd
      subst hd
      obtain ⟨l, u, hl⟩ := hsd
      rw [hl]
      exact ⟨scanMergeSessions l sess.session_number, now, by simp [scanEntryValue, hne]⟩
  · intro r σ' c c' h hc hc'
    obtain ⟨sess₀, c₀, hs₀, _, _, hc₀, _, hσ'⟩ := stop_qr_session_ok_inv h
    obtain rfl : sess = sess₀ := Option.some.inj (hs.symm.trans hs₀)
    obtain rfl : c = c₀ := Option.some.inj (hc.symm.trans hc₀)
    have hc'' : σ'.get_class cid = some (stopClassAfter c
        (activeRecordIds (σ.get_enrollments cid)) sess.scanned_students date
        sess.session_number now) := by
      rw [hσ', get_class_put_qr]
      exact get_class_update_self _ _ _
    obtain rfl : c' = stopClassAfter c (activeRecordIds (σ.get_enrollments cid))
        sess.scanned_students date sess.session_number now := by
      exact (Option.some.inj (hc''.symm.trans hc')).symm
    unfold stopClassAfter
    refine forall₂_map_self _ _ _ ?_
    intro x hx d hsd
    split
    · apply withEntry_preserves_structured hsd
      intro hd
      subst hd
      obtain ⟨l, u, hl⟩ := hsd
      rw [hl]
      exact ⟨stopMergeSessions l sess.session_number, now, by simp [stopEntryValue, hne]⟩
    · exact hsd

theorem claim_c4_witness :
    ∃ r σ', scan_qr_code exState3 "s1" "c1" (.raw "CODE1234") exDate 70 = (.ok r, σ') ∧
      ∃ c', σ'.get_class "c1" = some c' ∧
        List.Forall₂ (fun a b => ∀ d, structuredAt a d → structuredAt b d)
          exClass3.students c'.students := by
  have h := (claim_c4_structured_persistence exState3 "s1" "c1" "t1" exDate
    (.raw "CODE1234") 70 exSession3 (by decide) (by decide)).1
  refine ⟨_, _, rfl, _, rfl, h _ _ exClass3 _ rfl (by decide) rfl⟩

theorem canonicalIds_unique {l : List SessionMark} {m m' : Nat}
    (h : canonicalIds l m) (h' : canonicalIds l m') : m = m' := by
  have := (canonicalIds_length h).symm.trans (canonicalIds_length h')
  omega

theorem scanMerge_firstMark_filled {l : List SessionMark} {m n : Nat}
    (hc : canonicalIds l m) (_h1 : 1 ≤ n) :
    ∀ i, m < i → i ≤ max m n → i ≠ n →
      firstMark (scanMergeSessions l n) (sessionId i) = some (some "A") := by
  intro i hmi hiN hin
  rcases le_or_lt n m with hle | hgt
  · rw [Nat.max_eq_left hle] at hiN
    omega
  · rw [Nat.max_eq_right (by omega)] at hiN
    rw [scanMerge_canonical_gt hc hgt]
    rw [firstMark_append_of_not_mem (by rw [canonicalIds_mem hc]; omega)]
    have hmem : i ∈ segRange m n := mem_segRange.mpr ⟨by omega, hiN⟩
    rw [firstMark_map_of_mem (scanTailMark n) (fun j => rfl) _ hmem]
    simp [scanTailMark, hin]

theorem stopMerge_firstMark_filled {l : List SessionMark} {m n : Nat}
    (hc : canonicalIds l m) :
    ∀ i, m < i → i ≤ max m n →
      firstMark (stopMergeSessions l n) (sessionId i) = some (some "A") := by
  intro i hmi hiN
  rcases le_or_lt n m with hle | hgt
  · rw [Nat.max_eq_left hle] at hiN
    omega
  · rw [Nat.max_eq_right (by omega)] at hiN
    rw [stopMerge_canonical_gt hc hgt]
    rw [firstMark_append_of_not_mem (by rw [canonicalIds_mem hc]; omega)]
    have hmem : i ∈ segRange m n := mem_segRange.mpr ⟨by omega, hiN⟩
    rw [firstMark_map_of_mem stopTailMark (fun j => rfl) _ hmem]
    simp [stopTailMark]

theorem scanEntry_filled {cur : Option DayValue} {n now : Nat}
    (hwf : wfPrior cur) (h2 : 2 ≤ n) :
    filledStructured cur (scanEntryValue cur n now) n now := by
  have hne : n ≠ 1 := by omega
  rcases hwf with rfl | ⟨s, rfl⟩ | ⟨l, u, m, rfl, hc⟩
  · refine ⟨scanBuildSessions none n, n, by simp [scanEntryValue, hne],
      scanBuild_canonical none n, Nat.le_refl n, ?_, ?_, ?_⟩
    · intro _ i h1 hiN hin
      rw [scanBuild_firstMark none n i h1 hiN]
      simp [hin]
    · intro s0 h0
      cases h0
    · intro l0 u0 m h0
      cases h0
  · refine ⟨scanBuildSessions (some s) n, n, by simp [scanEntryValue, hne],
      scanBuild_canonical (some s) n, Nat.le_refl n, ?_, ?_, ?_⟩
    · intro h0
      cases h0
    · intro s0 h0
      obtain rfl : s = s0 := by cases h0; rfl
      constructor
      · rw [scanBuild_firstMark (some s) n 1 (by omega) (by omega)]
        rfl
      · intro i hi2 hiN hin
        rw [scanBuild_firstMark (some s) n i (by omega) hiN]
        simp [hin, show i ≠ 1 by omega]
    · intro l0 u0 m h0
      cases h0
  · refine ⟨scanMergeSessions l n, max m n, by simp [scanEntryValue, hne],
      scanMerge_canonical hc (by omega), Nat.le_max_right m n, ?_, ?_, ?_⟩
    · intro h0
      cases h0
    · intro s0 h0
      cases h0
    · intro l0 u0 m' h0 hc'
      obtain rfl : l = l0 := by cases h0; rfl
      obtain rfl : m = m' := canonicalIds_unique hc hc'
      exact scanMerge_firstMark_filled hc (by omega)

theorem stopEntry_filled {cur : Option DayValue} {n now : Nat}
    (hwf : wfPrior cur) (h2 : 2 ≤ n) :
    filledStructured cur (stopEntryValue cur n now) n now := by
  have hne : n ≠ 1 := by omega
  rcases hwf with rfl | ⟨s, rfl⟩ | ⟨l, u, m, rfl, hc⟩
  · refine ⟨stopBuildSessions none n, n, by simp [stopEntryValue, hne],
      stopBuild_canonical none n, Nat.le_refl n, ?_, ?_, ?_⟩
    · intro _ i h1 hiN hin
      rw [stopBuild_firstMark none n i h1 hiN]
    · intro s0 h0
      cases h0
    · intro l0 u0 m h0
      cases h0
  · refine ⟨stopBuildSessions (some s) n, n, by simp [stopEntryValue, hne],
      stopBuild_canonical (some s) n, Nat.le_refl n, ?_, ?_, ?_⟩
    · intro h0
      cases h0
    · intro s0 h0
      obtain rfl : s = s0 := by cases h0; rfl
      constructor
      · rw [stopBuild_firstMark (some s) n 1 (by omega) (by omega)]
        rfl
      · intro i hi2 hiN hin
        rw [stopBuild_firstMark (some s) n i (by omega) hiN]
        simp [show i ≠ 1 by omega]
    · intro l0 u0 m h0
      cases h0
  · refine ⟨stopMergeSessions l n, max m n, by simp [stopEntryValue, hne],
      stopMerge_canonical hc, Nat.le_max_right m n, ?_, ?_, ?_⟩
    · intro h0
      cases h0
    · intro s0 h0
      cases h0
    · intro l0 u0 m' h0 hc'
      obtain rfl : l = l0 := by cases h0; rfl
      obtain rfl : m = m' := canonicalIds_unique hc hc'
      intro i hmi hiN hin
      exact stopMerge_firstMark_filled hc i hmi hiN

/-- C9: after a successful scan the target student's stored entry is the
scalar P when session_number is 1, and otherwise a structured value with
canonical session ids covering session_number, a P mark for the target
session, missing sessions filled with A and session 1 carrying a prior
scalar; after a successful stop every swept student's value is the scalar A
when session_number is 1, and otherwise a structured value of the same
filled shape. -/
theorem claim_c9_representation (σ : DBState) (sid cid tid date : String)
    (input : ScanInput) (now : Nat) (sess : QRSession) (e : Enrollment)
    (c : ClassData) (st : StudentRecord)
    (hs : σ.get_qr_session cid date = some sess) (ha : sess.status = "active")
    (ht : sess.teacher_id = tid)
    (hcode : extractCode input = some sess.current_code)
    (he : findActiveEnrollment (σ.get_enrollments cid) sid = some e)
    (hc : σ.get_class cid = some c)
    (hst : findStudentRecord c.students e.student_record_id = some st)
    (hwf : wfPrior (alookup st.attendance date)) :
    (∃ r σ₁, scan_qr_code σ sid cid input date now = (.ok r, σ₁) ∧
      entryOfState σ₁ cid e.student_record_id date =
        some (scanEntryValue (alookup st.attendance date) sess.session_number now) ∧
      (sess.session_number = 1 →
        scanEntryValue (alookup st.attendance date) sess.session_number now = .str "P") ∧
      (2 ≤ sess.session_number →
        filledStructured (alookup st.attendance date)
          (scanEntryValue (alookup st.attendance date) sess.session_number now)
          sess.session_number now ∧
        entryMark (scanEntryValue (alookup st.attendance date) sess.session_number now)
          sess.session_number = some "P")) ∧
    (∃ r₂ σ₂, stop_qr_session σ cid tid date now = (.ok r₂, σ₂) ∧
      σ₂.get_class cid = some (stopClassAfter c
        (activeRecordIds (σ.get_enrollments cid)) sess.scanned_students date
        sess.session_number now) ∧
      (stopClassAfter c (activeRecordIds (σ.get_enrollments cid))
          sess.scanned_students date sess.session_number now).students =
        c.students.map (fun r =>
          if r.id ∈ activeRecordIds (σ.get_enrollments cid) ∧
              r.id ∉ sess.scanned_students then
            withEntry r date
              (stopEntryValue (alookup r.attendance date) sess.session_number now)
          else r) ∧
      (∀ r : StudentRecord, wfPrior (alookup r.attendance date) →
        (sess.session_number = 1 →
          stopEntryValue (alookup r.attendance date) sess.session_number now = .str "A") ∧
        (2 ≤ sess.session_number →
          filledStructured (alookup r.attendance date)
            (stopEntryValue (alookup r.attendance date) sess.session_number now)
            sess.session_number now))) := by
  constructor
  · refine ⟨_, _, scan_qr_code_ok σ sid cid input date now sess e c st hs ha hcode he hc hst,
      ?_, ?_, ?_⟩
    · unfold entryOfState
      rw [get_class_put_qr, get_class_update_self]
      show (match findStudentRecord (updateFirstStudent c.students e.student_record_id
        (fun r => withEntry r date (scanEntryValue (alookup st.attendance date)
          sess.session_number now))) e.student_record_id with
        | none => none
        | some st' => alookup st'.attendance date) = _
      rw [findStudentRecord_updateFirst c.students e.student_record_id
        (fun r => withEntry r date (scanEntryValue (alookup st.attendance date)
          sess.session_number now)) (fun r => rfl), hst]
      show alookup (aset st.attendance date _) date = _
      rw [alookup_aset_self]
    · intro h1
      simp [scanEntryValue, h1]
    · intro h2
      refine ⟨scanEntry_filled hwf h2, ?_⟩
      exact scanEntryValue_mark (by omega) hwf
  · refine ⟨_, _, stop_qr_session_ok σ cid tid date now sess c hs ha ht hc, ?_, rfl, ?_⟩
    · rw [get_class_put_qr, get_class_update_self]
    · intro r hwfr
      refine ⟨fun h1 => by simp [stopEntryValue, h1], fun h2 => stopEntry_filled hwfr h2⟩

theorem claim_c9_witness :
    (∃ r σ₁, scan_qr_code exState9 "s1" "c1" (.raw "CODE1234") exDate 80 = (.ok r, σ₁) ∧
      entryOfState σ₁ "c1" "r1" exDate =
        some (scanEntryValue (some (.str "P")) 2 80) ∧
      (2 ≤ exSession3.session_number →
        filledStructured (alookup [(exDate, DayValue.str "P")] exDate)
          (scanEntryValue (alookup [(exDate, DayValue.str "P")] exDate)
            exSession3.session_number 80) exSession3.session_number 80 ∧
        entryMark (scanEntryValue (alookup [(exDate, DayValue.str "P")] exDate)
          exSession3.session_number 80) exSession3.session_number = some "P")) ∧
    (∃ r₂ σ₂, stop_qr_session exState9 "c1" "t1" exDate 80 = (.ok r₂, σ₂)) := by
  have h := claim_c9_representation exState9 "s1" "c1" "t1" exDate (.raw "CODE1234") 80
    exSession3 { student_id := "s1", student_record_id := "r1", status := "active" }
    exClass9 { id := "r1", attendance := [(exDate, .str "P")] }
    (by decide) (by decide) (by decide) (by decide) (by decide) (by decide) (by decide)
    (Or.inr (Or.inl ⟨"P", by decide⟩))
  obtain ⟨⟨r, σ₁, hscan, hentry, _, hrep⟩, ⟨r₂, σ₂, hstop, _⟩⟩ := h
  exact ⟨⟨r, σ₁, hscan, hentry, hrep⟩, ⟨r₂, σ₂, hstop⟩⟩

end AttendSheets

